import Mathlib

/-! # HiVoPuCounter: discharge detector, bin lookup and FRAM histogram

A shallow embedding of `src/HiVoPuCounter/hivopucounter.c`.

* Machine integers are natural numbers; every place where the C code can wrap
  (`uint32_t` subtraction and addition, narrowing to `uint16_t` or `uint8_t`)
  carries an explicit `% 2 ^ w`.
* The global variables of the firmware are the fields of `State`; every C
  function that touches them is a function `State → State`.
* The FRAM chip behind the SPI bus is a byte store `Nat → Nat`.
* UART and OLED output are recorded in `State.trace`.
-/

namespace HiVoPuCounter

/-! ## Constants (lines 68-83) -/

def OP_WREN : Nat := 0b00000110
def OP_READ_H : Nat := 0b00001011
def OP_READ_L : Nat := 0b00000011
def OP_WRITE_H : Nat := 0b00001010
def OP_WRITE_L : Nat := 0b00000010

def BUFFER_DEPTH : Nat := 5
def DELTAV_TH : Nat := 10
def UNBLOCK_DELTA : Nat := 2
def DETECTION_BLOCK_COUNTER_MAX : Nat := 100

/-! ## Bin table (lines 88-102) -/

def bins_V : List Nat := [420,448,476,504,532,560,588,616,644,672,700,728,756,785,813,841, 869,897,925,953,981,1009,
1037,1065,1093,1122,1150,1178,1206,1234,1262,1290,1318,1346,1374,1402,1430,1458,1487,1515,1543,1571,1599,1627,1655,1683,
1711,1739,1767,1795,1824,1852,1880,1908,1936,1964,1992,2020,2048,2076,2104,2132,2161,2189,2217,2245,2273,2301,2329,2357,
2385,2413,2441,2469,2497,2526,2554,2582,2610,2638,2666,2694,2722,2750,2778,2806,2834,2863,2891,2919,2947,2975,3003,3031,
3059,3087,3115,3143,3171,3200]

def bins_adc : List Nat := [134,143,152,161,170,179,188,197,206,215,224,233,241,250,259,268,277,286,295,304,313,322,
331,340,349,358,367,376,385,394,403,412,421,430,439,448,457,466,475,484,493,502,511,520,529,538,547,556,565,574,583,592,
601,610,619,628,636,645,654,663,672,681,690,699,708,717,726,735,744,753,762,771,780,789,798,807,816,825,834,843,852,861,
870,879,888,897,906,915,924,933,942,951,960,969,978,987,996,1005,1014,1023]

def addr : List Nat := [0,4,8,12,16,20,24,28,32,36,40,44,48,52,56,60,64,68,72,76,80,84,88,92,96,100,104,108,112,116,
120,124,128,132,136,140,144,148,152,156,160,164,168,172,176,180,184,188,192,196,200,204,208,212,216,220,224,228,232,236,
240,244,248,252,256,260,264,268,272,276,280,284,288,292,296,300,304,308,312,316,320,324,328,332,336,340,344,348,352,356,
360,364,368,372,376,380,384,388,392,396]

/-! ## `get_index_bin` (lines 226-234) -/

/-- The `for (i = ...; i > 0; i--)` loop of `get_index_bin`, entered with
loop variable `i`: the body runs for `i, i-1, ..., 1` and the loop is left
when `i` reaches `0`, where the function returns `-1`. -/
def get_index_bin_loop (adc_value : Nat) : Nat → Int
  | 0 => -1
  | i + 1 =>
    if adc_value > bins_adc.getD (i + 1) 0 then ((i + 1 : Nat) : Int)
    else get_index_bin_loop adc_value i

/-- The C function `int16_t get_index_bin(uint16_t adc_value)`; the argument
is narrowed to 16 bits on the call. -/
def get_index_bin (adc_value : Nat) : Int :=
  get_index_bin_loop (adc_value % 2 ^ 16) (bins_adc.length - 1)

/-! ## The FRAM behind the SPI bus -/

/-- Modelled from the spec: the SPI driver (`SPI_begin_8`, `SPI_transfer_8`,
`SPI_end` of `ch32v003_SPI.h`) and the FM25040B chip are not part of the
source file; the spec calls the chip a byte-addressable persistent store.
The store maps each of its 512 byte addresses to a byte. -/
abbrev FRAM := Nat → Nat

/-- Modelled from the spec: the 9-bit address selected by a READ or WRITE
command, whose op-code carries address bit 8 in bit 3 and which is followed
by one address byte (`SPI_transfer_8` sends a `uint8_t`). -/
def fram_address (opcode addr_byte : Nat) : Nat :=
  (opcode / 8) % 2 * 256 + addr_byte % 256

/-- Modelled from the spec: one byte clocked out of the store at address `a`. -/
def fram_get (m : FRAM) (a : Nat) : Nat := m (a % 512) % 256

/-- Modelled from the spec: one byte clocked into the store at address `a`. -/
def fram_put (m : FRAM) (a v : Nat) : FRAM :=
  fun x => if x = a % 512 then v % 256 else m x

/-- The C function `write_4bytes` (lines 147-166). The write-enable command
is always sent; the WRITE transaction with its four data bytes, most
significant first at consecutive addresses, is sent only below `0x1FC`. -/
def write_4bytes (m : FRAM) (addr data : Nat) : FRAM :=
  if addr < 0x1FC then
    let a := fram_address (if addr > 255 then OP_WRITE_H else OP_WRITE_L) addr
    let m := fram_put m a (data / 2 ^ 24)
    let m := fram_put m (a + 1) (data / 2 ^ 16)
    let m := fram_put m (a + 2) (data / 2 ^ 8)
    fram_put m (a + 3) data
  else m

/-- The C function `read_4bytes` (lines 168-187): four bytes are clocked out
and assembled in a `uint32_t`, most significant first. -/
def read_4bytes (m : FRAM) (addr : Nat) : Nat :=
  let a := fram_address (if addr > 255 then OP_READ_H else OP_READ_L) addr
  let data := fram_get m a
  let data := (data * 2 ^ 8) % 2 ^ 32
  let data := (data + fram_get m (a + 1)) % 2 ^ 32
  let data := (data * 2 ^ 8) % 2 ^ 32
  let data := (data + fram_get m (a + 2)) % 2 ^ 32
  let data := (data * 2 ^ 8) % 2 ^ 32
  (data + fram_get m (a + 3)) % 2 ^ 32

/-! ## Global state (lines 108-120) and observable output -/

/-- What the firmware sends to the outside apart from the FRAM contents. -/
inductive Effect where
  /-- A WRITE transaction of `write_4bytes` that reached the chip. -/
  | fram_write (addr data : Nat)
  /-- One call of `output_log`: the header voltage and the printed
  `(bins_V[i], count)` lines. -/
  | uart_log (avg_V : Nat) (lines : List (Nat × Nat))
  /-- The call `ssd1306_setbuf(0)` that clears the display buffer. -/
  | oled_clear
  /-- The calls `ssd1306_drawstr(0, y, text_string, 1); ssd1306_refresh()`,
  with the two numbers rendered into `text_string`. -/
  | oled_line (y volt count : Nat)
  deriving DecidableEq, Repr

/-- The global variables the detector works on. `fram` is the content of the
external chip; `trace` collects the output, newest last;
`oob_writes` counts stores to `buffer_samples[i]` with `i ≥ BUFFER_DEPTH`,
whose effect on memory is outside the model and is dropped. -/
structure State where
  buffer_samples : List Nat
  avg : Nat
  discharge_detection_blocked : Nat
  detection_block_counter : Nat
  current_row : Nat
  fram : FRAM
  trace : List Effect
  oob_writes : Nat

/-- The state `main` sets up before its loop (lines 442-443 and the zero
initialisation of globals), for a given FRAM content. -/
def reset (m : FRAM) : State :=
  { buffer_samples := List.replicate BUFFER_DEPTH 0
    avg := 0
    discharge_detection_blocked := 0
    detection_block_counter := 0
    current_row := 0
    fram := m
    trace := []
    oob_writes := 0 }

/-- The C types of the globals: `uint16_t buffer_samples[5]`, `uint32_t avg`,
`uint16_t discharge_detection_blocked`, `uint32_t detection_block_counter`,
`uint8_t current_row`. -/
def WellTyped (st : State) : Prop :=
  st.buffer_samples.length = BUFFER_DEPTH ∧
  (∀ x ∈ st.buffer_samples, x < 2 ^ 16) ∧
  st.avg < 2 ^ 32 ∧
  st.discharge_detection_blocked < 2 ^ 16 ∧
  st.detection_block_counter < 2 ^ 32 ∧
  st.current_row < 2 ^ 8

/-- The count of the histogram bin `i`, as `read_4bytes(addr[i])` returns it. -/
def counter (m : FRAM) (i : Nat) : Nat := read_4bytes m (addr.getD i 0)

/-! ## `output_log` (lines 359-371) -/

/-- The body of the `for` loop of `output_log` over the bin indices `is`. -/
def output_log_lines (m : FRAM) : List Nat → List (Nat × Nat)
  | [] => []
  | i :: is =>
    let buffer := read_4bytes m (addr.getD i 0)
    if buffer > 0 then (bins_V.getD i 0, buffer) :: output_log_lines m is
    else output_log_lines m is

/-- The C function `output_log`; `idx` is the value of `get_index_bin(avg)`,
which its only caller has checked not to be `-1`. -/
def output_log (st : State) (idx : Nat) : State :=
  { st with trace := st.trace ++
      [Effect.uart_log (bins_V.getD idx 0) (output_log_lines st.fram (List.range addr.length))] }

/-! ## `detect_discharge` (lines 199-223) -/

/-- The branch of `detect_discharge` taken when a bin was found: increment
the bin's counter, log on the UART, advance the OLED row, draw the line. -/
def record_discharge (st : State) (idx : Nat) : State :=
  let a := addr.getD idx 0
  let data := (read_4bytes st.fram a + 1) % 2 ^ 32
  let st := { st with fram := write_4bytes st.fram a data,
                      trace := st.trace ++ (if a < 0x1FC then [Effect.fram_write a data] else []) }
  let st := output_log st idx
  let st := if st.current_row ≤ 6 then { st with current_row := (st.current_row + 1) % 2 ^ 8 }
            else { st with current_row := 0, trace := st.trace ++ [Effect.oled_clear] }
  { st with trace := st.trace ++
      [Effect.oled_line (8 * st.current_row) (bins_V.getD idx 0) (read_4bytes st.fram a)] }

/-- The C function `detect_discharge`. The comparison is made in `uint32_t`:
`avg - DELTAV_TH` wraps below zero. -/
def detect_discharge (st : State) : State :=
  if st.discharge_detection_blocked = 0 then
    if (st.avg + 2 ^ 32 - DELTAV_TH) % 2 ^ 32 > st.buffer_samples.getD 0 0 then
      let st := { st with discharge_detection_blocked := 1 }
      if get_index_bin st.avg ≠ -1 then
        record_discharge st (get_index_bin st.avg).toNat
      else st
    else st
  else st

/-! ## `unblock_detect_discharge` (lines 306-315) -/

/-- The C function `unblock_detect_discharge`; both comparisons are made in
`uint32_t`, and the function does not look at the blocked flag. -/
def unblock_detect_discharge (st : State) : State :=
  if st.buffer_samples.getD 0 0 < (st.avg + UNBLOCK_DELTA) % 2 ^ 32 ∧
     st.buffer_samples.getD 0 0 > (st.avg + 2 ^ 32 - UNBLOCK_DELTA) % 2 ^ 32 then
    let st := { st with detection_block_counter := (st.detection_block_counter + 1) % 2 ^ 32 }
    if st.detection_block_counter > DETECTION_BLOCK_COUNTER_MAX then
      { st with detection_block_counter := 0, discharge_detection_blocked := 0 }
    else st
  else st

/-! ## `calc_avg` (lines 282-291) and the loop body of `main` (lines 469-478) -/

/-- The summing loop of `calc_avg` over the indices `is`, in `uint32_t`. -/
def calc_avg_sum (buf : List Nat) : List Nat → Nat → Nat
  | [], sum => sum
  | i :: is, sum => calc_avg_sum buf is ((sum + buf.getD i 0) % 2 ^ 32)

/-- The C function `calc_avg`. -/
def calc_avg (st : State) : Nat :=
  calc_avg_sum st.buffer_samples (List.range BUFFER_DEPTH) 0 / BUFFER_DEPTH

/-- The store `buffer_samples[i] = v`, bounds-checked: a store outside the
array is counted and leaves the modelled variables alone. -/
def store_sample (st : State) (i v : Nat) : State :=
  if i < BUFFER_DEPTH then { st with buffer_samples := st.buffer_samples.set i (v % 2 ^ 16) }
  else { st with oob_writes := st.oob_writes + 1 }

/-- The loop `for (i = BUFFER_DEPTH-1; i >= 0; i--) buffer_samples[i+1] = buffer_samples[i];`
entered with `i + 1 = n`. -/
def shift_samples : Nat → State → State
  | 0, st => st
  | i + 1, st => shift_samples i (store_sample st (i + 1) (st.buffer_samples.getD i 0))

/-- Lines 469-476 of the loop body of `main`: average, shift, insert the value
`sample` that `adc_get()` returns. -/
def take_sample (st : State) (sample : Nat) : State :=
  let st := { st with avg := calc_avg st }
  let st := shift_samples BUFFER_DEPTH st
  store_sample st 0 sample

/-- One iteration of the `while(1)` loop of `main` (lines 469-478). -/
def tick (st : State) (sample : Nat) : State :=
  unblock_detect_discharge (detect_discharge (take_sample st sample))

/-- The loop of `main` run over the samples the ADC delivers, oldest first. -/
def run (st : State) : List Nat → State
  | [] => st
  | s :: ss => run (tick st s) ss

/-! ## Observations used to state the properties -/

/-- The newest sample, `buffer_samples[0]`. -/
def newest (st : State) : Nat := st.buffer_samples.getD 0 0

/-- Number of FRAM WRITE transactions in a trace. -/
def fram_writes (t : List Effect) : Nat :=
  t.countP (fun e => match e with
    | Effect.fram_write _ _ => true
    | _ => false)

/-- Number of `output_log` calls in a trace. -/
def reports (t : List Effect) : Nat :=
  t.countP (fun e => match e with
    | Effect.uart_log _ _ => true
    | _ => false)

/-- Every loop iteration of a run takes a sample that lies within
`avg ± UNBLOCK_DELTA` with the bounds included, where `avg` is the average of
that iteration: `avg - UNBLOCK_DELTA ≤ s ≤ avg + UNBLOCK_DELTA` as integers. -/
def ticks_within : State → List Nat → Bool
  | _, [] => true
  | st, s :: ss =>
    decide ((take_sample st s).avg ≤ newest (take_sample st s) + UNBLOCK_DELTA ∧
      newest (take_sample st s) ≤ (take_sample st s).avg + UNBLOCK_DELTA) &&
    ticks_within (tick st s) ss

/-- Every loop iteration of a run has an average of at least `UNBLOCK_DELTA`
and takes a sample that lies within `avg ± UNBLOCK_DELTA` with the bounds
excluded: `avg - UNBLOCK_DELTA < s < avg + UNBLOCK_DELTA`. -/
def ticks_strictly_within : State → List Nat → Bool
  | _, [] => true
  | st, s :: ss =>
    decide (UNBLOCK_DELTA ≤ (take_sample st s).avg ∧
      (take_sample st s).avg < newest (take_sample st s) + UNBLOCK_DELTA ∧
      newest (take_sample st s) < (take_sample st s).avg + UNBLOCK_DELTA) &&
    ticks_strictly_within (tick st s) ss

/-! ## Concrete inputs used in the evaluations -/

/-- An FRAM whose bytes are all zero. -/
def zero_fram : FRAM := fun _ => 0

/-- The level 500 sampled 206 times: from reset, 5 samples fill the window,
101 stable ones end the Blocked phase that the first iteration starts, and
100 more are taken while Armed. -/
def steady_500 : List Nat := List.replicate 206 500

/-- A Blocked state with Block Counter 0 over a flat window of level 100. -/
def blocked_flat_100 : State :=
  { buffer_samples := [100, 100, 100, 100, 100]
    avg := 100
    discharge_detection_blocked := 1
    detection_block_counter := 0
    current_row := 0
    fram := zero_fram
    trace := []
    oob_writes := 0 }

/-- An Armed state whose newest sample 400 is a dip below the average 500 of
the previous window, over the FRAM content `m`. -/
def armed_dip_500 (m : FRAM) : State :=
  { buffer_samples := [400, 500, 500, 500, 500]
    avg := 500
    discharge_detection_blocked := 0
    detection_block_counter := 0
    current_row := 0
    fram := m
    trace := []
    oob_writes := 0 }

/-- An FRAM in which the counter of bin 40 (address 160) holds `2 ^ 32 - 1`
and every other byte is zero. -/
def full_bin_40 : FRAM := write_4bytes zero_fram 160 (2 ^ 32 - 1)

/-! ## Facts about the bin lookup -/

/-- The loop of `get_index_bin` entered at `n` returns `-1` or an index in `1..n`. -/
theorem get_index_bin_loop_range (v n : Nat) :
    get_index_bin_loop v n = -1 ∨
      ∃ k : Nat, 1 ≤ k ∧ k ≤ n ∧ get_index_bin_loop v n = (k : Int) := by
  induction n with
  | zero => left; rfl
  | succ n ih =>
    unfold get_index_bin_loop
    split
    · right; exact ⟨n + 1, by omega, le_refl _, rfl⟩
    · rcases ih with h | ⟨k, h1, h2, h3⟩
      · left; exact h
      · right; exact ⟨k, h1, by omega, h3⟩

/-- A result of `get_index_bin` other than `-1` is an index in `1..99`. -/
theorem get_index_bin_range (v : Nat) :
    get_index_bin v = -1 ∨ ∃ k : Nat, 1 ≤ k ∧ k ≤ 99 ∧ get_index_bin v = (k : Int) :=
  get_index_bin_loop_range (v % 2 ^ 16) 99

/-- Every table address is four times its bin index. -/
theorem addr_getD (k : Nat) (hk : k < 100) : addr.getD k 0 = 4 * k := by
  revert k
  decide

/-- C1 (the code departs from the claim). At level 140, which is above the
lowest threshold `bins_adc[0] = 134` and not above `bins_adc[1] = 143`, the
greatest index `i` with `level > bins_adc[i]` is `0`, yet `get_index_bin`
returns `-1`: its loop stops before index `0`. -/
theorem get_index_bin_skips_lowest_bin :
    bins_adc.getD 0 0 = 134 ∧ 140 > bins_adc.getD 0 0 ∧ ¬ 140 > bins_adc.getD 1 0 ∧
      get_index_bin 140 = -1 := by
  decide

/-- C2 (the code departs from the claim). In the first loop iteration after
reset the average is 0 and, with a sample of 0, the sample is not below the
average at all (`s + DELTAV_TH < avg` is false), yet `detect_discharge`
leaves the state Blocked: `avg - DELTAV_TH` wraps around in `uint32_t`. -/
theorem detect_discharge_fires_without_dip :
    (take_sample (reset (fun _ => 0)) 0).discharge_detection_blocked = 0 ∧
      (take_sample (reset (fun _ => 0)) 0).avg = 0 ∧
      (take_sample (reset (fun _ => 0)) 0).buffer_samples.getD 0 0 = 0 ∧
      ¬ (0 + DELTAV_TH < 0) ∧
      (detect_discharge (take_sample (reset (fun _ => 0)) 0)).discharge_detection_blocked = 1 := by
  decide

/-! ## Facts about the FRAM store -/

/-- Below 512 the WRITE op-code and address byte select the address itself. -/
theorem fram_address_write (a : Nat) (h : a < 512) :
    fram_address (if a > 255 then OP_WRITE_H else OP_WRITE_L) a = a := by
  unfold fram_address OP_WRITE_H OP_WRITE_L
  split <;> omega

/-- Below 512 the READ op-code and address byte select the address itself. -/
theorem fram_address_read (a : Nat) (h : a < 512) :
    fram_address (if a > 255 then OP_READ_H else OP_READ_L) a = a := by
  unfold fram_address OP_READ_H OP_READ_L
  split <;> omega

/-- Reading a byte after a byte was written. -/
theorem fram_get_put (m : FRAM) (a v b : Nat) :
    fram_get (fram_put m a v) b = if b % 512 = a % 512 then v % 256 else fram_get m b := by
  unfold fram_get fram_put
  split <;> simp

/-- A 32-bit value written below `0x1FC` is read back at the same address. -/
theorem read_4bytes_write_4bytes_same (m : FRAM) (a d : Nat) (h : a < 0x1FC) :
    read_4bytes (write_4bytes m a d) a = d % 2 ^ 32 := by
  have h' : a < 512 := by omega
  unfold read_4bytes write_4bytes
  simp only [h, if_true, fram_address_write a h', fram_address_read a h', fram_get_put]
  have e0 : ¬ (a % 512 = (a + 3) % 512) := by omega
  have e1 : ¬ (a % 512 = (a + 2) % 512) := by omega
  have e2 : ¬ (a % 512 = (a + 1) % 512) := by omega
  have e3 : ¬ ((a + 1) % 512 = (a + 3) % 512) := by omega
  have e4 : ¬ ((a + 1) % 512 = (a + 2) % 512) := by omega
  have e5 : ¬ ((a + 2) % 512 = (a + 3) % 512) := by omega
  simp only [e0, e1, e2, e3, e4, e5, if_false, if_true]
  omega

/-- A 32-bit write leaves a disjoint 32-bit cell unchanged. -/
theorem read_4bytes_write_4bytes_other (m : FRAM) (a b d : Nat) (ha : a < 0x1FC) (hb : b < 0x1FC)
    (hab : a + 4 ≤ b ∨ b + 4 ≤ a) :
    read_4bytes (write_4bytes m a d) b = read_4bytes m b := by
  have ha' : a < 512 := by omega
  have hb' : b < 512 := by omega
  unfold read_4bytes write_4bytes
  simp only [ha, if_true, fram_address_write a ha', fram_address_read b hb', fram_get_put]
  have e : ∀ i j, i < 4 → j < 4 → ¬ ((b + i) % 512 = (a + j) % 512) := by
    intro i j hi hj; omega
  have e00 := e 0 0 (by omega) (by omega)
  have e01 := e 0 1 (by omega) (by omega)
  have e02 := e 0 2 (by omega) (by omega)
  have e03 := e 0 3 (by omega) (by omega)
  have e10 := e 1 0 (by omega) (by omega)
  have e11 := e 1 1 (by omega) (by omega)
  have e12 := e 1 2 (by omega) (by omega)
  have e13 := e 1 3 (by omega) (by omega)
  have e20 := e 2 0 (by omega) (by omega)
  have e21 := e 2 1 (by omega) (by omega)
  have e22 := e 2 2 (by omega) (by omega)
  have e23 := e 2 3 (by omega) (by omega)
  have e30 := e 3 0 (by omega) (by omega)
  have e31 := e 3 1 (by omega) (by omega)
  have e32 := e 3 2 (by omega) (by omega)
  have e33 := e 3 3 (by omega) (by omega)
  simp only [Nat.add_zero] at e00 e01 e02 e03 e10 e20 e30
  simp only [e00, e01, e02, e03, e10, e11, e12, e13, e20, e21, e22, e23, e30, e31, e32, e33,
    if_false]

/-! ## Facts about `detect_discharge` -/

/-- While Blocked, `detect_discharge` returns the state as it is. -/
theorem detect_discharge_of_blocked (st : State) (h : st.discharge_detection_blocked ≠ 0) :
    detect_discharge st = st := by
  unfold detect_discharge
  rw [if_neg h]

/-- With no dip seen, `detect_discharge` returns the state as it is. -/
theorem detect_discharge_of_no_dip (st : State)
    (h : ¬ (st.avg + 2 ^ 32 - DELTAV_TH) % 2 ^ 32 > st.buffer_samples.getD 0 0) :
    detect_discharge st = st := by
  unfold detect_discharge
  rw [if_neg h]
  split <;> rfl

/-- When it fires with no bin found, only the flag changes. -/
theorem detect_discharge_of_not_found (st : State) (hA : st.discharge_detection_blocked = 0)
    (h : (st.avg + 2 ^ 32 - DELTAV_TH) % 2 ^ 32 > st.buffer_samples.getD 0 0)
    (hb : get_index_bin st.avg = -1) :
    detect_discharge st = { st with discharge_detection_blocked := 1 } := by
  unfold detect_discharge
  rw [if_pos hA, if_pos h]
  simp [hb]

/-- When it fires with bin `k` found, the bin is recorded. -/
theorem detect_discharge_of_found (st : State) (k : Nat) (hA : st.discharge_detection_blocked = 0)
    (h : (st.avg + 2 ^ 32 - DELTAV_TH) % 2 ^ 32 > st.buffer_samples.getD 0 0)
    (hb : get_index_bin st.avg = (k : Int)) :
    detect_discharge st = record_discharge { st with discharge_detection_blocked := 1 } k := by
  unfold detect_discharge
  rw [if_pos hA, if_pos h]
  have hne : get_index_bin st.avg ≠ -1 := by rw [hb]; omega
  simp [hb]

/-- What `record_discharge` leaves alone, and what it does to the store. -/
theorem record_discharge_fields (st : State) (k : Nat) :
    (record_discharge st k).buffer_samples = st.buffer_samples ∧
    (record_discharge st k).avg = st.avg ∧
    (record_discharge st k).discharge_detection_blocked = st.discharge_detection_blocked ∧
    (record_discharge st k).detection_block_counter = st.detection_block_counter ∧
    (record_discharge st k).oob_writes = st.oob_writes ∧
    (record_discharge st k).fram =
      write_4bytes st.fram (addr.getD k 0) ((read_4bytes st.fram (addr.getD k 0) + 1) % 2 ^ 32) := by
  unfold record_discharge output_log
  refine ⟨?_, ?_, ?_, ?_, ?_, ?_⟩ <;> dsimp only <;> split <;> rfl

/-- For a table index, `record_discharge` adds one WRITE and one report. -/
theorem record_discharge_trace (st : State) (k : Nat) (hk : k < 100) :
    fram_writes (record_discharge st k).trace = fram_writes st.trace + 1 ∧
    reports (record_discharge st k).trace = reports st.trace + 1 := by
  have ha : addr.getD k 0 < 0x1FC := by rw [addr_getD k hk]; omega
  unfold record_discharge output_log fram_writes reports
  dsimp only
  rw [if_pos ha]
  constructor <;> split <;> simp [List.countP_append, List.countP_cons]

/-- The sample window, the average and the Block Counter are never touched
by `detect_discharge`. -/
theorem detect_discharge_keeps (st : State) :
    (detect_discharge st).buffer_samples = st.buffer_samples ∧
    (detect_discharge st).avg = st.avg ∧
    (detect_discharge st).detection_block_counter = st.detection_block_counter := by
  by_cases hA : st.discharge_detection_blocked = 0
  · by_cases h : (st.avg + 2 ^ 32 - DELTAV_TH) % 2 ^ 32 > st.buffer_samples.getD 0 0
    · rcases get_index_bin_range st.avg with hb | ⟨k, _, _, hb⟩
      · rw [detect_discharge_of_not_found st hA h hb]
        exact ⟨rfl, rfl, rfl⟩
      · rw [detect_discharge_of_found st k hA h hb]
        have hf := record_discharge_fields { st with discharge_detection_blocked := 1 } k
        exact ⟨hf.1, hf.2.1, hf.2.2.2.1⟩
    · rw [detect_discharge_of_no_dip st h]
      exact ⟨rfl, rfl, rfl⟩
  · rw [detect_discharge_of_blocked st hA]
    exact ⟨rfl, rfl, rfl⟩

/-- C3 (the code departs from the claim). From reset, after 206 samples of
500 the detector is Armed with Block Counter 100; the next sample 400 is a
dip below the average 500, `detect_discharge` fires, and the Block Counter is
still 100 right after the call: the function never writes it. -/
theorem detect_discharge_leaves_block_counter :
    (take_sample (run (reset zero_fram) steady_500) 400).discharge_detection_blocked = 0 ∧
      (take_sample (run (reset zero_fram) steady_500) 400).avg = 500 ∧
      newest (take_sample (run (reset zero_fram) steady_500) 400) = 400 ∧
      (take_sample (run (reset zero_fram) steady_500) 400).detection_block_counter = 100 ∧
      (detect_discharge
        (take_sample (run (reset zero_fram) steady_500) 400)).discharge_detection_blocked = 1 ∧
      (detect_discharge
        (take_sample (run (reset zero_fram) steady_500) 400)).detection_block_counter = 100 := by
  decide!

/-- C4 (the code departs from the claim). From reset, after 206 samples of
500 a dip to 400 fires (first WRITE, bin 40 counts 1) and leaves the state
Blocked with Block Counter 100; six samples of 500 later, only the last of
which lies within `avg ± UNBLOCK_DELTA`, the state is Armed again, and the
next dip to 400 fires a second time (bin 40 counts 2), 7 iterations after the
first. -/
theorem rearmed_after_one_stable_tick :
    (run (reset zero_fram) steady_500).discharge_detection_blocked = 0 ∧
      fram_writes (run (reset zero_fram) steady_500).trace = 0 ∧
      (run (reset zero_fram) (steady_500 ++ [400])).discharge_detection_blocked = 1 ∧
      (run (reset zero_fram) (steady_500 ++ [400])).detection_block_counter = 100 ∧
      fram_writes (run (reset zero_fram) (steady_500 ++ [400])).trace = 1 ∧
      (run (reset zero_fram)
        (steady_500 ++ [400] ++ List.replicate 5 500)).detection_block_counter = 100 ∧
      (run (reset zero_fram)
        (steady_500 ++ [400] ++ List.replicate 6 500)).discharge_detection_blocked = 0 ∧
      fram_writes (run (reset zero_fram)
        (steady_500 ++ [400] ++ List.replicate 6 500 ++ [400])).trace = 2 ∧
      counter (run (reset zero_fram)
        (steady_500 ++ [400] ++ List.replicate 6 500 ++ [400])).fram 40 = 2 ∧
      (List.replicate 6 500 ++ [400]).length < DETECTION_BLOCK_COUNTER_MAX := by
  decide!

/-! ## Facts about `unblock_detect_discharge` -/

/-- With `UNBLOCK_DELTA ≤ avg` and no wrap of `avg + UNBLOCK_DELTA`, the
`uint32_t` test of `unblock_detect_discharge` is the strict integer test
`avg - UNBLOCK_DELTA < s < avg + UNBLOCK_DELTA`. -/
theorem unblock_test_iff (st : State) (h1 : UNBLOCK_DELTA ≤ st.avg)
    (h2 : st.avg + UNBLOCK_DELTA < 2 ^ 32) :
    (st.buffer_samples.getD 0 0 < (st.avg + UNBLOCK_DELTA) % 2 ^ 32 ∧
      st.buffer_samples.getD 0 0 > (st.avg + 2 ^ 32 - UNBLOCK_DELTA) % 2 ^ 32) ↔
    (st.avg < newest st + UNBLOCK_DELTA ∧ newest st < st.avg + UNBLOCK_DELTA) := by
  unfold newest
  unfold UNBLOCK_DELTA at *
  omega

/-- A sample outside the strict band leaves the state as it is. -/
theorem unblock_of_outside (st : State) (h1 : UNBLOCK_DELTA ≤ st.avg)
    (h2 : st.avg + UNBLOCK_DELTA < 2 ^ 32)
    (h : ¬ (st.avg < newest st + UNBLOCK_DELTA ∧ newest st < st.avg + UNBLOCK_DELTA)) :
    unblock_detect_discharge st = st := by
  unfold unblock_detect_discharge
  rw [if_neg (fun hc => h ((unblock_test_iff st h1 h2).mp hc))]

/-- A sample inside the strict band advances a Block Counter below the maximum. -/
theorem unblock_of_inside_lt (st : State) (h1 : UNBLOCK_DELTA ≤ st.avg)
    (h2 : st.avg + UNBLOCK_DELTA < 2 ^ 32)
    (h : st.avg < newest st + UNBLOCK_DELTA ∧ newest st < st.avg + UNBLOCK_DELTA)
    (hc : st.detection_block_counter < DETECTION_BLOCK_COUNTER_MAX) :
    unblock_detect_discharge st =
      { st with detection_block_counter := st.detection_block_counter + 1 } := by
  unfold unblock_detect_discharge
  rw [if_pos ((unblock_test_iff st h1 h2).mpr h)]
  unfold DETECTION_BLOCK_COUNTER_MAX at *
  have e : (st.detection_block_counter + 1) % 2 ^ 32 = st.detection_block_counter + 1 := by omega
  simp only [e]
  rw [if_neg (by omega)]

/-- A sample inside the strict band with the Block Counter at the maximum
clears the counter and the blocked flag. -/
theorem unblock_of_inside_max (st : State) (h1 : UNBLOCK_DELTA ≤ st.avg)
    (h2 : st.avg + UNBLOCK_DELTA < 2 ^ 32)
    (h : st.avg < newest st + UNBLOCK_DELTA ∧ newest st < st.avg + UNBLOCK_DELTA)
    (hc : st.detection_block_counter = DETECTION_BLOCK_COUNTER_MAX) :
    unblock_detect_discharge st =
      { st with detection_block_counter := 0, discharge_detection_blocked := 0 } := by
  unfold unblock_detect_discharge
  rw [if_pos ((unblock_test_iff st h1 h2).mpr h)]
  unfold DETECTION_BLOCK_COUNTER_MAX at *
  have e : (st.detection_block_counter + 1) % 2 ^ 32 = 101 := by omega
  simp only [e]
  rw [if_pos (by omega)]

/-- The window, the average, the store and the output are never touched by
`unblock_detect_discharge`. -/
theorem unblock_keeps (st : State) :
    (unblock_detect_discharge st).buffer_samples = st.buffer_samples ∧
    (unblock_detect_discharge st).avg = st.avg ∧
    (unblock_detect_discharge st).fram = st.fram ∧
    (unblock_detect_discharge st).trace = st.trace := by
  unfold unblock_detect_discharge
  split
  · dsimp only
    split <;> exact ⟨rfl, rfl, rfl, rfl⟩
  · exact ⟨rfl, rfl, rfl, rfl⟩

/-! ## Facts about the sampling step -/

/-- A store into the window touches nothing but the window and the
out-of-bounds count. -/
theorem store_sample_keeps (st : State) (i v : Nat) :
    (store_sample st i v).avg = st.avg ∧
    (store_sample st i v).discharge_detection_blocked = st.discharge_detection_blocked ∧
    (store_sample st i v).detection_block_counter = st.detection_block_counter ∧
    (store_sample st i v).fram = st.fram ∧
    (store_sample st i v).trace = st.trace := by
  unfold store_sample
  split <;> exact ⟨rfl, rfl, rfl, rfl, rfl⟩

/-- The shift loop touches nothing but the window and the out-of-bounds count. -/
theorem shift_samples_keeps (n : Nat) (st : State) :
    (shift_samples n st).avg = st.avg ∧
    (shift_samples n st).discharge_detection_blocked = st.discharge_detection_blocked ∧
    (shift_samples n st).detection_block_counter = st.detection_block_counter ∧
    (shift_samples n st).fram = st.fram ∧
    (shift_samples n st).trace = st.trace := by
  induction n generalizing st with
  | zero => exact ⟨rfl, rfl, rfl, rfl, rfl⟩
  | succ n ih =>
    unfold shift_samples
    have h1 := ih (store_sample st (n + 1) (st.buffer_samples.getD n 0))
    have h2 := store_sample_keeps st (n + 1) (st.buffer_samples.getD n 0)
    exact ⟨h1.1.trans h2.1, h1.2.1.trans h2.2.1, h1.2.2.1.trans h2.2.2.1,
      h1.2.2.2.1.trans h2.2.2.2.1, h1.2.2.2.2.trans h2.2.2.2.2⟩

/-- The sampling step sets `avg` to `calc_avg` and leaves the detector, the
store and the output alone. -/
theorem take_sample_keeps (st : State) (s : Nat) :
    (take_sample st s).avg = calc_avg st ∧
    (take_sample st s).discharge_detection_blocked = st.discharge_detection_blocked ∧
    (take_sample st s).detection_block_counter = st.detection_block_counter ∧
    (take_sample st s).fram = st.fram ∧
    (take_sample st s).trace = st.trace := by
  unfold take_sample
  have h1 := store_sample_keeps (shift_samples BUFFER_DEPTH { st with avg := calc_avg st }) 0 s
  have h2 := shift_samples_keeps BUFFER_DEPTH { st with avg := calc_avg st }
  exact ⟨h1.1.trans h2.1, h1.2.1.trans h2.2.1, h1.2.2.1.trans h2.2.2.1,
    h1.2.2.2.1.trans h2.2.2.2.1, h1.2.2.2.2.trans h2.2.2.2.2⟩

/-- The running sum of `calc_avg` stays a `uint32_t`. -/
theorem calc_avg_sum_lt (buf is : List Nat) (sum : Nat) (h : sum < 2 ^ 32) :
    calc_avg_sum buf is sum < 2 ^ 32 := by
  induction is generalizing sum with
  | nil => exact h
  | cons i is ih =>
    unfold calc_avg_sum
    exact ih _ (Nat.mod_lt _ (by norm_num))

/-- The average is far from the top of the `uint32_t` range. -/
theorem calc_avg_lt (st : State) : calc_avg st + UNBLOCK_DELTA < 2 ^ 32 := by
  have h := calc_avg_sum_lt st.buffer_samples (List.range BUFFER_DEPTH) 0 (by norm_num)
  unfold calc_avg UNBLOCK_DELTA
  have e : BUFFER_DEPTH = 5 := rfl
  rw [e] at h ⊢
  omega

/-! ## Runs of stable iterations while Blocked -/

/-- One iteration from a Blocked state whose sample is strictly inside the
band: the detector is inert and the Block Counter advances, or, at the
maximum, counter and flag are cleared. -/
theorem tick_blocked_inside (st : State) (s : Nat) (hB : st.discharge_detection_blocked ≠ 0)
    (h1 : UNBLOCK_DELTA ≤ (take_sample st s).avg)
    (h : (take_sample st s).avg < newest (take_sample st s) + UNBLOCK_DELTA ∧
      newest (take_sample st s) < (take_sample st s).avg + UNBLOCK_DELTA) :
    (st.detection_block_counter < DETECTION_BLOCK_COUNTER_MAX →
      (tick st s).discharge_detection_blocked = st.discharge_detection_blocked ∧
      (tick st s).detection_block_counter = st.detection_block_counter + 1) ∧
    (st.detection_block_counter = DETECTION_BLOCK_COUNTER_MAX →
      (tick st s).discharge_detection_blocked = 0 ∧
      (tick st s).detection_block_counter = 0) := by
  have hk := take_sample_keeps st s
  have hB' : (take_sample st s).discharge_detection_blocked ≠ 0 := by rw [hk.2.1]; exact hB
  have h2 : (take_sample st s).avg + UNBLOCK_DELTA < 2 ^ 32 := by
    rw [hk.1]; exact calc_avg_lt st
  unfold tick
  rw [detect_discharge_of_blocked _ hB']
  constructor
  · intro hc
    rw [unblock_of_inside_lt _ h1 h2 h (by rw [hk.2.2.1]; exact hc)]
    exact ⟨hk.2.1, by dsimp only; rw [hk.2.2.1]⟩
  · intro hc
    rw [unblock_of_inside_max _ h1 h2 h (by rw [hk.2.2.1]; exact hc)]
    exact ⟨rfl, rfl⟩

/-- From a Blocked state with Block Counter `c ≤ 100`, a run of `101 - c`
strictly stable iterations ends Armed with Block Counter 0. -/
theorem run_blocked_inside (ss : List Nat) (st : State)
    (hB : st.discharge_detection_blocked ≠ 0)
    (hc : st.detection_block_counter ≤ DETECTION_BLOCK_COUNTER_MAX)
    (hlen : st.detection_block_counter + ss.length = DETECTION_BLOCK_COUNTER_MAX + 1)
    (hs : ticks_strictly_within st ss = true) :
    (run st ss).discharge_detection_blocked = 0 ∧ (run st ss).detection_block_counter = 0 := by
  induction ss generalizing st with
  | nil =>
    simp only [List.length_nil] at hlen
    omega
  | cons s ss ih =>
    unfold ticks_strictly_within at hs
    simp only [Bool.and_eq_true, decide_eq_true_eq] at hs
    obtain ⟨⟨h1, h⟩, hrest⟩ := hs
    have ht := tick_blocked_inside st s hB h1 h
    simp only [List.length_cons] at hlen
    unfold run
    by_cases hmax : st.detection_block_counter = DETECTION_BLOCK_COUNTER_MAX
    · have hnil : ss = [] := by
        apply List.eq_nil_of_length_eq_zero
        omega
      subst hnil
      exact ht.2 hmax
    · have hlt : st.detection_block_counter < DETECTION_BLOCK_COUNTER_MAX := by omega
      have ht1 := ht.1 hlt
      apply ih (tick st s)
      · rw [ht1.1]; exact hB
      · rw [ht1.2]; omega
      · rw [ht1.2]; omega
      · exact hrest

/-- C5, as stated, fails: from a Blocked state with Block Counter 0, 101
iterations whose samples all lie within `avg ± UNBLOCK_DELTA` (the first one
exactly at `avg + UNBLOCK_DELTA`) leave the state Blocked with Block Counter
100. -/
theorem still_blocked_after_101_ticks_within :
    blocked_flat_100.discharge_detection_blocked ≠ 0 ∧
      blocked_flat_100.detection_block_counter = 0 ∧
      (102 :: List.replicate 100 100).length = DETECTION_BLOCK_COUNTER_MAX + 1 ∧
      ticks_within blocked_flat_100 (102 :: List.replicate 100 100) = true ∧
      (run blocked_flat_100 (102 :: List.replicate 100 100)).discharge_detection_blocked = 1 ∧
      (run blocked_flat_100 (102 :: List.replicate 100 100)).detection_block_counter = 100 := by
  decide!

/-- C5, amended. From every state that is Blocked with Block Counter 0,
`DETECTION_BLOCK_COUNTER_MAX + 1` consecutive iterations, each with an
average of at least `UNBLOCK_DELTA` and a newest sample strictly inside
`avg ± UNBLOCK_DELTA`, leave the state Armed with Block Counter 0. -/
theorem armed_after_101_ticks_strictly_within (st : State) (ss : List Nat)
    (hB : st.discharge_detection_blocked ≠ 0) (hc : st.detection_block_counter = 0)
    (hlen : ss.length = DETECTION_BLOCK_COUNTER_MAX + 1)
    (hs : ticks_strictly_within st ss = true) :
    (run st ss).discharge_detection_blocked = 0 ∧ (run st ss).detection_block_counter = 0 :=
  run_blocked_inside ss st hB (by rw [hc]; exact Nat.zero_le _) (by rw [hc, hlen, Nat.zero_add]) hs

/-- C5, amended, at a flat window of level 100 fed 101 samples of 100. -/
theorem armed_after_101_ticks_strictly_within_witness :
    (run blocked_flat_100 (List.replicate 101 100)).discharge_detection_blocked = 0 ∧
      (run blocked_flat_100 (List.replicate 101 100)).detection_block_counter = 0 :=
  armed_after_101_ticks_strictly_within blocked_flat_100 (List.replicate 101 100)
    (by decide) (by decide) (by decide) (by set_option maxRecDepth 20000 in decide)

/-! ## Blocked phases are silent -/

/-- One iteration from a Blocked state changes neither the store nor the output. -/
theorem tick_blocked_silent (st : State) (s : Nat) (hB : st.discharge_detection_blocked ≠ 0) :
    (tick st s).fram = st.fram ∧ (tick st s).trace = st.trace := by
  have hk := take_sample_keeps st s
  have hB' : (take_sample st s).discharge_detection_blocked ≠ 0 := by rw [hk.2.1]; exact hB
  have hu := unblock_keeps (detect_discharge (take_sample st s))
  unfold tick
  rw [hu.2.2.1, hu.2.2.2, detect_discharge_of_blocked _ hB']
  exact ⟨hk.2.2.2.1, hk.2.2.2.2⟩

/-- A run whose every iteration starts Blocked changes neither the store nor
the output. -/
theorem run_blocked_silent (ss : List Nat) (st : State)
    (h : ∀ i, i < ss.length → (run st (ss.take i)).discharge_detection_blocked ≠ 0) :
    (run st ss).fram = st.fram ∧ (run st ss).trace = st.trace := by
  induction ss generalizing st with
  | nil => exact ⟨rfl, rfl⟩
  | cons s ss ih =>
    have hB : st.discharge_detection_blocked ≠ 0 := h 0 (by simp)
    have ht := tick_blocked_silent st s hB
    have hrest : ∀ i, i < ss.length →
        (run (tick st s) (ss.take i)).discharge_detection_blocked ≠ 0 := by
      intro i hi
      have := h (i + 1) (by simp only [List.length_cons]; omega)
      simpa [run] using this
    have hi := ih (tick st s) hrest
    unfold run
    exact ⟨hi.1.trans ht.1, hi.2.trans ht.2⟩

/-- C6. While Blocked, `detect_discharge` returns the whole state unchanged
(store, output, blocked flag, Block Counter), whatever the average and the
newest sample are; and over any run of iterations each of which starts
Blocked, that is, before `unblock_detect_discharge` has re-armed the
detector, the store and the output stay as they were. -/
theorem detect_discharge_inert_while_blocked (st : State)
    (hB : st.discharge_detection_blocked ≠ 0) :
    detect_discharge st = st ∧
    (∀ a s : Nat,
      detect_discharge { st with avg := a, buffer_samples := s :: st.buffer_samples.tail } =
        { st with avg := a, buffer_samples := s :: st.buffer_samples.tail }) ∧
    (∀ ss : List Nat,
      (∀ i, i < ss.length → (run st (ss.take i)).discharge_detection_blocked ≠ 0) →
      (run st ss).fram = st.fram ∧ (run st ss).trace = st.trace) :=
  ⟨detect_discharge_of_blocked st hB,
    fun a s => detect_discharge_of_blocked
      { st with avg := a, buffer_samples := s :: st.buffer_samples.tail } hB,
    fun ss h => run_blocked_silent ss st h⟩

/-- C6 at a Blocked state over a flat window of 100, fed three dips. -/
theorem detect_discharge_inert_while_blocked_witness :
    blocked_flat_100.discharge_detection_blocked ≠ 0 ∧
      detect_discharge blocked_flat_100 = blocked_flat_100 ∧
      (run blocked_flat_100 [50, 40, 30]).trace = blocked_flat_100.trace :=
  ⟨by decide, (detect_discharge_inert_while_blocked blocked_flat_100 (by decide)).1,
    ((detect_discharge_inert_while_blocked blocked_flat_100 (by decide)).2.2 [50, 40, 30]
      (by decide)).2⟩

/-! ## One dip, one event -/

/-- For a `uint32_t` average of at least `DELTAV_TH`, the wrapped test of
`detect_discharge` is the integer test `avg - DELTAV_TH > s`. -/
theorem dip_test_iff (st : State) (hty : st.avg < 2 ^ 32) (h1 : DELTAV_TH ≤ st.avg) :
    (st.avg + 2 ^ 32 - DELTAV_TH) % 2 ^ 32 > st.buffer_samples.getD 0 0 ↔
      st.avg - DELTAV_TH > newest st := by
  unfold newest
  unfold DELTAV_TH at *
  omega

/-- A newest sample at or below `avg - UNBLOCK_DELTA` fails the test of
`unblock_detect_discharge`. -/
theorem unblock_of_below (st : State) (hty : st.avg < 2 ^ 32) (h1 : UNBLOCK_DELTA ≤ st.avg)
    (h : newest st + UNBLOCK_DELTA ≤ st.avg) :
    unblock_detect_discharge st = st := by
  unfold unblock_detect_discharge
  rw [if_neg]
  unfold newest at h
  unfold UNBLOCK_DELTA at *
  omega

/-- C7. In every Armed state whose newest sample is a genuine dip
(`DELTAV_TH ≤ avg` and `avg - DELTAV_TH > s`), `detect_discharge` followed by
`unblock_detect_discharge` ends Blocked with the Block Counter as it was,
whatever it was; the pair makes at most one FRAM write and at most one report
(exactly one of each when a bin is found, none and an unchanged store when
not), and a repeated `detect_discharge` at the end adds nothing. -/
theorem genuine_dip_one_event (st : State) (hA : st.discharge_detection_blocked = 0)
    (hty : st.avg < 2 ^ 32) (h1 : DELTAV_TH ≤ st.avg) (h2 : st.avg - DELTAV_TH > newest st) :
    (detect_discharge st).discharge_detection_blocked = 1 ∧
    (unblock_detect_discharge (detect_discharge st)).discharge_detection_blocked = 1 ∧
    (unblock_detect_discharge (detect_discharge st)).detection_block_counter =
      st.detection_block_counter ∧
    fram_writes (unblock_detect_discharge (detect_discharge st)).trace ≤
      fram_writes st.trace + 1 ∧
    reports (unblock_detect_discharge (detect_discharge st)).trace ≤ reports st.trace + 1 ∧
    (get_index_bin st.avg ≠ -1 →
      fram_writes (unblock_detect_discharge (detect_discharge st)).trace =
        fram_writes st.trace + 1 ∧
      reports (unblock_detect_discharge (detect_discharge st)).trace = reports st.trace + 1) ∧
    (get_index_bin st.avg = -1 →
      (unblock_detect_discharge (detect_discharge st)).trace = st.trace ∧
      (unblock_detect_discharge (detect_discharge st)).fram = st.fram) ∧
    detect_discharge (unblock_detect_discharge (detect_discharge st)) =
      unblock_detect_discharge (detect_discharge st) := by
  have hdip := (dip_test_iff st hty h1).mpr h2
  have hkeep := detect_discharge_keeps st
  have hbelow : unblock_detect_discharge (detect_discharge st) = detect_discharge st := by
    apply unblock_of_below
    · rw [hkeep.2.1]; exact hty
    · rw [hkeep.2.1]; unfold DELTAV_TH at h1; unfold UNBLOCK_DELTA; omega
    · unfold newest at h2 ⊢
      rw [hkeep.2.1, hkeep.1]
      unfold DELTAV_TH at h1 h2
      unfold UNBLOCK_DELTA
      omega
  rw [hbelow]
  rcases get_index_bin_range st.avg with hb | ⟨k, _, hk99, hb⟩
  · rw [detect_discharge_of_not_found st hA hdip hb]
    refine ⟨rfl, rfl, rfl, Nat.le_succ _, Nat.le_succ _, fun hne => absurd hb hne,
      fun _ => ⟨rfl, rfl⟩, ?_⟩
    exact detect_discharge_of_blocked _ (by dsimp only; exact Nat.one_ne_zero)
  · rw [detect_discharge_of_found st k hA hdip hb]
    have hf := record_discharge_fields { st with discharge_detection_blocked := 1 } k
    have ht := record_discharge_trace { st with discharge_detection_blocked := 1 } k (by omega)
    have hbl : (record_discharge { st with discharge_detection_blocked := 1 } k
        ).discharge_detection_blocked = 1 := hf.2.2.1
    refine ⟨hbl, hbl, hf.2.2.2.1, le_of_eq ht.1, le_of_eq ht.2, fun _ => ht, ?_, ?_⟩
    · intro hneg
      rw [hb] at hneg
      omega
    · exact detect_discharge_of_blocked _ (by rw [hbl]; exact Nat.one_ne_zero)

/-- C7 at the Armed state with average 500 and newest sample 400. -/
theorem genuine_dip_one_event_witness :
    (armed_dip_500 zero_fram).discharge_detection_blocked = 0 ∧
      (unblock_detect_discharge
        (detect_discharge (armed_dip_500 zero_fram))).discharge_detection_blocked = 1 ∧
      fram_writes (unblock_detect_discharge (detect_discharge (armed_dip_500 zero_fram))).trace ≤
        fram_writes (armed_dip_500 zero_fram).trace + 1 :=
  ⟨by decide,
    (genuine_dip_one_event (armed_dip_500 zero_fram) (by decide) (by decide) (by decide)
      (by decide)).2.1,
    (genuine_dip_one_event (armed_dip_500 zero_fram) (by decide) (by decide) (by decide)
      (by decide)).2.2.2.1⟩

/-! ## The unblock band -/

/-- C8, as stated, fails: in the Blocked state reached from a flat window of
100 by taking the sample 102, the sample lies within `avg ± UNBLOCK_DELTA`
with the bounds included (`100 - 2 ≤ 102 ≤ 100 + 2`), yet
`unblock_detect_discharge` does not increment the Block Counter. -/
theorem unblock_skips_band_edge :
    (take_sample blocked_flat_100 102).discharge_detection_blocked ≠ 0 ∧
      (take_sample blocked_flat_100 102).avg = 100 ∧
      newest (take_sample blocked_flat_100 102) = 102 ∧
      ((100 : Int) - UNBLOCK_DELTA ≤ 102 ∧ (102 : Int) ≤ 100 + UNBLOCK_DELTA) ∧
      (unblock_detect_discharge (take_sample blocked_flat_100 102)).detection_block_counter =
        (take_sample blocked_flat_100 102).detection_block_counter := by
  decide

/-- C8, amended. While Blocked, with `UNBLOCK_DELTA ≤ avg`, no wrap of
`avg + UNBLOCK_DELTA` and a Block Counter of at most
`DETECTION_BLOCK_COUNTER_MAX`, `unblock_detect_discharge` changes the Block
Counter if and only if the newest sample lies strictly inside the band,
`avg - UNBLOCK_DELTA < s < avg + UNBLOCK_DELTA` as integers: the counter then
goes up by one and the state stays Blocked, or, from the maximum, the counter
is cleared and the state becomes Armed. For every other sample the whole
state is unchanged, so the counter is neither incremented nor reset and the
state stays Blocked. -/
theorem unblock_counts_iff_strictly_within (st : State)
    (hB : st.discharge_detection_blocked ≠ 0) (h1 : UNBLOCK_DELTA ≤ st.avg)
    (h2 : st.avg + UNBLOCK_DELTA < 2 ^ 32)
    (hc : st.detection_block_counter ≤ DETECTION_BLOCK_COUNTER_MAX) :
    ((unblock_detect_discharge st).detection_block_counter ≠ st.detection_block_counter ↔
      ((st.avg : Int) - UNBLOCK_DELTA < newest st ∧ (newest st : Int) < st.avg + UNBLOCK_DELTA)) ∧
    (((st.avg : Int) - UNBLOCK_DELTA < newest st ∧ (newest st : Int) < st.avg + UNBLOCK_DELTA) →
      st.detection_block_counter < DETECTION_BLOCK_COUNTER_MAX →
      (unblock_detect_discharge st).detection_block_counter = st.detection_block_counter + 1 ∧
      (unblock_detect_discharge st).discharge_detection_blocked ≠ 0) ∧
    (((st.avg : Int) - UNBLOCK_DELTA < newest st ∧ (newest st : Int) < st.avg + UNBLOCK_DELTA) →
      st.detection_block_counter = DETECTION_BLOCK_COUNTER_MAX →
      (unblock_detect_discharge st).detection_block_counter = 0 ∧
      (unblock_detect_discharge st).discharge_detection_blocked = 0) ∧
    (¬ ((st.avg : Int) - UNBLOCK_DELTA < newest st ∧ (newest st : Int) < st.avg + UNBLOCK_DELTA) →
      unblock_detect_discharge st = st ∧
      (unblock_detect_discharge st).discharge_detection_blocked ≠ 0) := by
  have hint : ((st.avg : Int) - UNBLOCK_DELTA < newest st ∧
      (newest st : Int) < st.avg + UNBLOCK_DELTA) ↔
      (st.avg < newest st + UNBLOCK_DELTA ∧ newest st < st.avg + UNBLOCK_DELTA) := by
    constructor <;> intro h <;> constructor <;> omega
  rw [hint]
  have hin_lt : (st.avg < newest st + UNBLOCK_DELTA ∧ newest st < st.avg + UNBLOCK_DELTA) →
      st.detection_block_counter < DETECTION_BLOCK_COUNTER_MAX →
      (unblock_detect_discharge st).detection_block_counter = st.detection_block_counter + 1 ∧
      (unblock_detect_discharge st).discharge_detection_blocked ≠ 0 := by
    intro h hlt
    rw [unblock_of_inside_lt st h1 h2 h hlt]
    exact ⟨rfl, hB⟩
  have hin_max : (st.avg < newest st + UNBLOCK_DELTA ∧ newest st < st.avg + UNBLOCK_DELTA) →
      st.detection_block_counter = DETECTION_BLOCK_COUNTER_MAX →
      (unblock_detect_discharge st).detection_block_counter = 0 ∧
      (unblock_detect_discharge st).discharge_detection_blocked = 0 := by
    intro h hmax
    rw [unblock_of_inside_max st h1 h2 h hmax]
    exact ⟨rfl, rfl⟩
  have hout : ¬ (st.avg < newest st + UNBLOCK_DELTA ∧ newest st < st.avg + UNBLOCK_DELTA) →
      unblock_detect_discharge st = st ∧
      (unblock_detect_discharge st).discharge_detection_blocked ≠ 0 := by
    intro h
    rw [unblock_of_outside st h1 h2 h]
    exact ⟨rfl, hB⟩
  refine ⟨⟨?_, ?_⟩, hin_lt, hin_max, hout⟩
  · intro hne
    by_contra hn
    exact hne (by rw [(hout hn).1])
  · intro h
    by_cases hmax : st.detection_block_counter = DETECTION_BLOCK_COUNTER_MAX
    · rw [(hin_max h hmax).1, hmax]
      decide
    · have hlt : st.detection_block_counter < DETECTION_BLOCK_COUNTER_MAX := by omega
      rw [(hin_lt h hlt).1]
      omega

/-- C8, amended, at a flat window of 100 that has taken the sample 101. -/
theorem unblock_counts_iff_strictly_within_witness :
    (take_sample blocked_flat_100 101).discharge_detection_blocked ≠ 0 ∧
      ((unblock_detect_discharge (take_sample blocked_flat_100 101)).detection_block_counter ≠
          (take_sample blocked_flat_100 101).detection_block_counter ↔
        (((take_sample blocked_flat_100 101).avg : Int) - UNBLOCK_DELTA <
            newest (take_sample blocked_flat_100 101) ∧
          (newest (take_sample blocked_flat_100 101) : Int) <
            (take_sample blocked_flat_100 101).avg + UNBLOCK_DELTA)) :=
  ⟨by decide,
    (unblock_counts_iff_strictly_within (take_sample blocked_flat_100 101) (by decide)
      (by decide) (by decide) (by decide)).1⟩

/-! ## Histogram counters -/

/-- The counter of bin `k` reads back what was written at `addr[k]`. -/
theorem counter_write_same (m : FRAM) (k d : Nat) (hk : k < 100) :
    counter (write_4bytes m (addr.getD k 0) d) k = d % 2 ^ 32 := by
  unfold counter
  exact read_4bytes_write_4bytes_same m _ d (by rw [addr_getD k hk]; omega)

/-- A write at `addr[k]` leaves the counter of every other bin unchanged. -/
theorem counter_write_other (m : FRAM) (k j d : Nat) (hk : k < 100) (hj : j < 100)
    (hne : j ≠ k) :
    counter (write_4bytes m (addr.getD k 0) d) j = counter m j := by
  unfold counter
  apply read_4bytes_write_4bytes_other
  · rw [addr_getD k hk]; omega
  · rw [addr_getD j hj]; omega
  · rw [addr_getD k hk, addr_getD j hj]; omega

/-- A counter below `2 ^ 32 - 1` is not decreased by `detect_discharge`. -/
theorem counter_detect_discharge_le (st : State) (i : Nat) (hi : i < 100)
    (hc : counter st.fram i < 2 ^ 32 - 1) :
    counter st.fram i ≤ counter (detect_discharge st).fram i := by
  by_cases hA : st.discharge_detection_blocked = 0
  · by_cases h : (st.avg + 2 ^ 32 - DELTAV_TH) % 2 ^ 32 > st.buffer_samples.getD 0 0
    · rcases get_index_bin_range st.avg with hb | ⟨k, _, hk99, hb⟩
      · rw [detect_discharge_of_not_found st hA h hb]
      · rw [detect_discharge_of_found st k hA h hb]
        rw [(record_discharge_fields { st with discharge_detection_blocked := 1 } k).2.2.2.2.2]
        dsimp only
        by_cases hik : i = k
        · subst hik
          rw [counter_write_same _ _ _ hi]
          have e : read_4bytes st.fram (addr.getD i 0) = counter st.fram i := rfl
          rw [e]
          omega
        · rw [counter_write_other _ k i _ (by omega) hi hik]
    · rw [detect_discharge_of_no_dip st h]
  · rw [detect_discharge_of_blocked st hA]

/-- C9, as stated, fails: with the counter of bin 40 at `2 ^ 32 - 1`, a dip
at average 500 makes `detect_discharge` write `0` there, so the count read
after the call is below the count read before it. -/
theorem counter_wraps_to_zero :
    get_index_bin (armed_dip_500 full_bin_40).avg = 40 ∧
      counter (armed_dip_500 full_bin_40).fram 40 = 4294967295 ∧
      counter (detect_discharge (armed_dip_500 full_bin_40)).fram 40 = 0 ∧
      ¬ counter (armed_dip_500 full_bin_40).fram 40 ≤
        counter (detect_discharge (armed_dip_500 full_bin_40)).fram 40 := by
  decide

/-- C9, amended. For every state, every bin counter that holds less than
`2 ^ 32 - 1` is not decreased by a call of `detect_discharge`, nor by a whole
loop iteration with any sample. -/
theorem counter_below_max_never_decreases (st : State) (i : Nat) (hi : i < 100)
    (hc : counter st.fram i < 2 ^ 32 - 1) :
    counter st.fram i ≤ counter (detect_discharge st).fram i ∧
    ∀ s : Nat, counter st.fram i ≤ counter (tick st s).fram i := by
  refine ⟨counter_detect_discharge_le st i hi hc, ?_⟩
  intro s
  have hk := take_sample_keeps st s
  have hu := unblock_keeps (detect_discharge (take_sample st s))
  have hd := counter_detect_discharge_le (take_sample st s) i hi (by rw [hk.2.2.2.1]; exact hc)
  rw [hk.2.2.2.1] at hd
  unfold tick
  rw [hu.2.2.1]
  exact hd

/-- C9, amended, at a dip over an empty histogram, for bin 40. -/
theorem counter_below_max_never_decreases_witness :
    counter (armed_dip_500 zero_fram).fram 40 < 2 ^ 32 - 1 ∧
      counter (armed_dip_500 zero_fram).fram 40 ≤
        counter (detect_discharge (armed_dip_500 zero_fram)).fram 40 :=
  ⟨by decide,
    (counter_below_max_never_decreases (armed_dip_500 zero_fram) 40 (by decide) (by decide)).1⟩

/-- C10. Whenever `detect_discharge` fires (Armed, dip test true) with
`get_index_bin(avg) = k` a bin index and the counter at `addr[k]` holding
`c < 2 ^ 32 - 1`, after the call that counter holds `c + 1`, the counter of
every other bin is unchanged, and exactly one FRAM write was made. -/
theorem fire_increments_exactly_one_counter (st : State) (k c : Nat)
    (hA : st.discharge_detection_blocked = 0)
    (hdip : (st.avg + 2 ^ 32 - DELTAV_TH) % 2 ^ 32 > st.buffer_samples.getD 0 0)
    (hk : get_index_bin st.avg = (k : Int))
    (hc : counter st.fram k = c) (hlt : c < 2 ^ 32 - 1) :
    counter (detect_discharge st).fram k = c + 1 ∧
    (∀ j, j < 100 → j ≠ k → counter (detect_discharge st).fram j = counter st.fram j) ∧
    fram_writes (detect_discharge st).trace = fram_writes st.trace + 1 := by
  have hk100 : k < 100 := by
    rcases get_index_bin_range st.avg with hb | ⟨k', _, hk99, hb⟩
    · rw [hk] at hb; omega
    · rw [hk] at hb; omega
  rw [detect_discharge_of_found st k hA hdip hk]
  rw [(record_discharge_fields { st with discharge_detection_blocked := 1 } k).2.2.2.2.2]
  dsimp only
  refine ⟨?_, ?_, ?_⟩
  · rw [counter_write_same _ _ _ hk100]
    have e : read_4bytes st.fram (addr.getD k 0) = counter st.fram k := rfl
    rw [e, hc]
    omega
  · intro j hj hne
    exact counter_write_other _ k j _ hk100 hj hne
  · exact (record_discharge_trace { st with discharge_detection_blocked := 1 } k hk100).1

/-- C10 at a dip over an empty histogram: bin 40 goes from 0 to 1. -/
theorem fire_increments_exactly_one_counter_witness :
    get_index_bin (armed_dip_500 zero_fram).avg = 40 ∧
      counter (detect_discharge (armed_dip_500 zero_fram)).fram 40 = 0 + 1 ∧
      (∀ j, j < 100 → j ≠ 40 →
        counter (detect_discharge (armed_dip_500 zero_fram)).fram j =
          counter (armed_dip_500 zero_fram).fram j) :=
  ⟨by decide,
    (fire_increments_exactly_one_counter (armed_dip_500 zero_fram) 40 0 (by decide) (by decide)
      (by decide) (by decide) (by decide)).1,
    (fire_increments_exactly_one_counter (armed_dip_500 zero_fram) 40 0 (by decide) (by decide)
      (by decide) (by decide) (by decide)).2.1⟩

/-! ## Firing without a bin, refused addresses, read after write -/

/-- C11. Whenever `detect_discharge` fires (Armed, dip test true) with an
average for which `get_index_bin` returns `-1`, the state after the call is
the state before it with the blocked flag set: the FRAM and with it every bin
counter are unchanged, and the output trace is unchanged, so there is no
WRITE, no `output_log` call and no display update. -/
theorem fire_without_bin_only_blocks (st : State) (hA : st.discharge_detection_blocked = 0)
    (hdip : (st.avg + 2 ^ 32 - DELTAV_TH) % 2 ^ 32 > st.buffer_samples.getD 0 0)
    (hb : get_index_bin st.avg = -1) :
    detect_discharge st = { st with discharge_detection_blocked := 1 } ∧
    (detect_discharge st).fram = st.fram ∧
    (detect_discharge st).trace = st.trace ∧
    (∀ i, counter (detect_discharge st).fram i = counter st.fram i) ∧
    fram_writes (detect_discharge st).trace = fram_writes st.trace ∧
    reports (detect_discharge st).trace = reports st.trace := by
  rw [detect_discharge_of_not_found st hA hdip hb]
  exact ⟨rfl, rfl, rfl, fun _ => rfl, rfl, rfl⟩

/-- C11 at an Armed state with average 140, for which no bin is found, and
newest sample 100. -/
theorem fire_without_bin_only_blocks_witness :
    get_index_bin ({ armed_dip_500 zero_fram with
        avg := 140, buffer_samples := [100, 140, 140, 140, 140] }).avg = -1 ∧
      (detect_discharge { armed_dip_500 zero_fram with
        avg := 140, buffer_samples := [100, 140, 140, 140, 140] }).trace = [] :=
  ⟨by decide,
    (fire_without_bin_only_blocks { armed_dip_500 zero_fram with
        avg := 140, buffer_samples := [100, 140, 140, 140, 140] }
      (by decide) (by decide) (by decide)).2.2.1⟩

/-- C12. For every address at or above `0x1FC` and every value,
`write_4bytes` returns the store it was given: every byte is as before. -/
theorem write_4bytes_refused (m : FRAM) (a d : Nat) (ha : 0x1FC ≤ a) :
    write_4bytes m a d = m ∧ ∀ x, write_4bytes m a d x = m x := by
  have e : write_4bytes m a d = m := by
    unfold write_4bytes
    rw [if_neg (by omega)]
  exact ⟨e, fun x => by rw [e]⟩

/-- C12 at the first refused address, on the store with bin 40 full. -/
theorem write_4bytes_refused_witness :
    (0x1FC : Nat) ≤ 0x1FC ∧ write_4bytes full_bin_40 0x1FC 7 = full_bin_40 :=
  ⟨by decide, (write_4bytes_refused full_bin_40 0x1FC 7 (by decide)).1⟩

/-- C13. For every address below `0x1FC`, every 32-bit value `d` and every
store, `read_4bytes` after `write_4bytes` at that address returns `d`; and
when the count read at the address is 0, the read-increment-write of
`detect_discharge` applied twice leaves a count of 2. -/
theorem read_after_write_and_double_increment (m : FRAM) (a d : Nat) (ha : a < 0x1FC)
    (hd : d < 2 ^ 32) :
    read_4bytes (write_4bytes m a d) a = d ∧
    (read_4bytes m a = 0 →
      read_4bytes
        (write_4bytes (write_4bytes m a ((read_4bytes m a + 1) % 2 ^ 32)) a
          ((read_4bytes (write_4bytes m a ((read_4bytes m a + 1) % 2 ^ 32)) a + 1) % 2 ^ 32))
        a = 2) := by
  constructor
  · rw [read_4bytes_write_4bytes_same m a d ha]
    exact Nat.mod_eq_of_lt hd
  · intro h0
    rw [read_4bytes_write_4bytes_same _ a _ ha, read_4bytes_write_4bytes_same _ a _ ha, h0]
    decide

/-- C13 at address 160 of the all-zero store with the value `0xDEADBEEF`. -/
theorem read_after_write_and_double_increment_witness :
    (160 : Nat) < 0x1FC ∧ read_4bytes (write_4bytes zero_fram 160 0xDEADBEEF) 160 = 0xDEADBEEF :=
  ⟨by decide,
    (read_after_write_and_double_increment zero_fram 160 0xDEADBEEF (by decide) (by decide)).1⟩

/-! ## The sample window -/

/-- The shift loop on a five-element window of 16-bit values: every element
moves one slot towards the end, the last one is stored out of bounds. -/
theorem shift_samples_window (st : State) (a b c d e : Nat)
    (hbuf : st.buffer_samples = [a, b, c, d, e])
    (ha : a < 2 ^ 16) (hb : b < 2 ^ 16) (hc : c < 2 ^ 16) (hd : d < 2 ^ 16) :
    (shift_samples BUFFER_DEPTH st).buffer_samples = [a, a, b, c, d] ∧
    (shift_samples BUFFER_DEPTH st).oob_writes = st.oob_writes + 1 := by
  simp [BUFFER_DEPTH, shift_samples, store_sample, hbuf]
  omega

/-- The sampling step on a five-element window of 16-bit values: the new
sample enters at index 0 and the oldest element leaves. -/
theorem take_sample_window (st : State) (s a b c d e : Nat)
    (hbuf : st.buffer_samples = [a, b, c, d, e])
    (ha : a < 2 ^ 16) (hb : b < 2 ^ 16) (hc : c < 2 ^ 16) (hd : d < 2 ^ 16) :
    (take_sample st s).buffer_samples = [s % 2 ^ 16, a, b, c, d] := by
  have h := (shift_samples_window { st with avg := calc_avg st } a b c d e hbuf ha hb hc hd).1
  unfold take_sample store_sample
  simp [BUFFER_DEPTH] at h ⊢
  rw [h]
  rfl

/-- The average of a five-element window of 16-bit values is the truncated
quotient of the plain sum: the `uint32_t` sum does not wrap. -/
theorem calc_avg_window (st : State) (a b c d e : Nat)
    (hbuf : st.buffer_samples = [a, b, c, d, e])
    (ha : a < 2 ^ 16) (hb : b < 2 ^ 16) (hc : c < 2 ^ 16) (hd : d < 2 ^ 16) (he : e < 2 ^ 16) :
    calc_avg st = (a + b + c + d + e) / 5 := by
  have e0 : List.range BUFFER_DEPTH = [0, 1, 2, 3, 4] := by decide
  unfold calc_avg
  rw [e0, hbuf]
  simp only [calc_avg_sum, List.getD_cons_zero, List.getD_cons_succ, BUFFER_DEPTH]
  congr 1
  omega
/-- Taking `k ≤ n + 1` elements does not see whether the tail behind the
inserted element was cut to `n` elements. -/
theorem take_append_cons_take (A B : List Nat) (s n k : Nat) (hk : k ≤ n + 1) :
    (A ++ s :: B.take n).take k = (A ++ s :: B).take k := by
  induction A generalizing k with
  | nil =>
    cases k with
    | zero => rfl
    | succ j =>
      simp only [List.nil_append, List.take_succ_cons, List.take_take]
      rw [Nat.min_eq_left (by omega)]
  | cons x A ih =>
    cases k with
    | zero => rfl
    | succ j =>
      simp only [List.cons_append, List.take_succ_cons]
      rw [ih j (by omega)]

/-- The sampling step on any five-element window of 16-bit values. -/
theorem take_sample_window_take (st : State) (s : Nat)
    (hlen : st.buffer_samples.length = BUFFER_DEPTH)
    (hb : ∀ x ∈ st.buffer_samples, x < 2 ^ 16) :
    (take_sample st s).buffer_samples = (s % 2 ^ 16) :: st.buffer_samples.take 4 := by
  match hbuf : st.buffer_samples, hlen, hb with
  | [a, b, c, d, e], _, hb =>
    rw [take_sample_window st s a b c d e hbuf (hb a (by simp)) (hb b (by simp))
      (hb c (by simp)) (hb d (by simp))]
    rfl
  | [], h, _ => simp [BUFFER_DEPTH] at h
  | [_], h, _ => simp [BUFFER_DEPTH] at h
  | [_, _], h, _ => simp [BUFFER_DEPTH] at h
  | [_, _, _], h, _ => simp [BUFFER_DEPTH] at h
  | [_, _, _, _], h, _ => simp [BUFFER_DEPTH] at h
  | _ :: _ :: _ :: _ :: _ :: _ :: _, h, _ => simp [BUFFER_DEPTH] at h

/-- A loop iteration leaves the window as the sampling step made it. -/
theorem tick_buffer_samples (st : State) (s : Nat) :
    (tick st s).buffer_samples = (take_sample st s).buffer_samples := by
  unfold tick
  rw [(unblock_keeps _).1, (detect_discharge_keeps _).1]

/-- A loop iteration keeps the window a five-element list of 16-bit values. -/
theorem tick_window_typed (st : State) (s : Nat)
    (hlen : st.buffer_samples.length = BUFFER_DEPTH)
    (hb : ∀ x ∈ st.buffer_samples, x < 2 ^ 16) :
    (tick st s).buffer_samples.length = BUFFER_DEPTH ∧
    ∀ x ∈ (tick st s).buffer_samples, x < 2 ^ 16 := by
  rw [tick_buffer_samples, take_sample_window_take st s hlen hb]
  constructor
  · simp only [List.length_cons, List.length_take]
    rw [hlen]
    rfl
  · intro x hx
    rcases List.mem_cons.mp hx with h | h
    · rw [h]; exact Nat.mod_lt _ (by norm_num)
    · exact hb x (List.mem_of_mem_take h)

/-- After a run over 16-bit samples the window holds the newest five
elements of the samples, newest first, followed by the old window. -/
theorem run_window (ss : List Nat) (st : State)
    (hlen : st.buffer_samples.length = BUFFER_DEPTH)
    (hb : ∀ x ∈ st.buffer_samples, x < 2 ^ 16) (hs : ∀ s ∈ ss, s < 2 ^ 16) :
    (run st ss).buffer_samples = (ss.reverse ++ st.buffer_samples).take 5 := by
  induction ss generalizing st with
  | nil =>
    simp only [run, List.reverse_nil, List.nil_append]
    rw [List.take_of_length_le (by rw [hlen]; decide)]
  | cons s ss ih =>
    have ht := tick_window_typed st s hlen hb
    have hs' : ∀ x ∈ ss, x < 2 ^ 16 := fun x hx => hs x (List.mem_cons_of_mem _ hx)
    unfold run
    rw [ih (tick st s) ht.1 ht.2 hs', tick_buffer_samples, take_sample_window_take st s hlen hb,
      Nat.mod_eq_of_lt (hs s (List.mem_cons_self _ _)),
      take_append_cons_take ss.reverse st.buffer_samples s 4 5 (le_refl _)]
    simp only [List.reverse_cons, List.append_assoc, List.singleton_append]

/-- C14. For every sequence of 16-bit samples fed to the loop from the reset
state, the window afterwards has five elements and `buffer_samples[j]` is the
`(j+1)`-th most recent sample for every `j` below the number of samples
taken, and `0` for the remaining slots: after five or more iterations the
window is exactly the last five samples, newest at index 0. -/
theorem window_holds_last_samples (m : FRAM) (ss : List Nat) (hs : ∀ s ∈ ss, s < 2 ^ 16) :
    (run (reset m) ss).buffer_samples = (ss.reverse ++ List.replicate 5 0).take 5 ∧
    (run (reset m) ss).buffer_samples.length = BUFFER_DEPTH ∧
    (∀ j, j < BUFFER_DEPTH → j < ss.length →
      (run (reset m) ss).buffer_samples.getD j 0 = ss.getD (ss.length - 1 - j) 0) ∧
    (∀ j, j < BUFFER_DEPTH → ss.length ≤ j →
      (run (reset m) ss).buffer_samples.getD j 0 = 0) ∧
    (BUFFER_DEPTH ≤ ss.length → (run (reset m) ss).buffer_samples = ss.reverse.take 5) := by
  have hrun : (run (reset m) ss).buffer_samples = (ss.reverse ++ List.replicate 5 0).take 5 :=
    run_window ss (reset m) rfl (by intro x hx; rw [(List.mem_replicate.mp hx).2]; norm_num) hs
  refine ⟨hrun, ?_, ?_, ?_, ?_⟩
  · rw [hrun]
    simp [BUFFER_DEPTH]
  · intro j hj hjl
    have hj5 : j < 5 := hj
    rw [hrun, List.getD_eq_getElem?_getD, List.getD_eq_getElem?_getD,
      List.getElem?_take_of_lt hj5,
      List.getElem?_append_left (by rw [List.length_reverse]; exact hjl),
      List.getElem?_reverse hjl]
  · intro j hj hjl
    have hj5 : j < 5 := hj
    rw [hrun, List.getD_eq_getElem?_getD, List.getElem?_take_of_lt hj5,
      List.getElem?_append_right (by rw [List.length_reverse]; exact hjl),
      List.getElem?_replicate]
    split <;> rfl
  · intro h5
    have h5' : 5 ≤ ss.reverse.length := by rw [List.length_reverse]; exact h5
    rw [hrun, List.take_append_eq_append_take, Nat.sub_eq_zero_of_le h5']
    simp

/-- C14 after seven samples: the window holds the last five, newest first. -/
theorem window_holds_last_samples_witness :
    (run (reset zero_fram) [1, 2, 3, 4, 5, 6, 7]).buffer_samples = [7, 6, 5, 4, 3] :=
  (window_holds_last_samples zero_fram [1, 2, 3, 4, 5, 6, 7] (by decide)).1

/-! ## The average -/

/-- C15. In every loop iteration over a window `w0..w4` of 16-bit values,
the `avg` that `detect_discharge` and `unblock_detect_discharge` see is
`(w0 + w1 + w2 + w3 + w4) / 5` of the window as it was before the push,
whatever the new sample is; the `uint32_t` sum equals the plain sum, which is
below `2 ^ 32`; and the average lies between the least and the greatest
element of that window. -/
theorem avg_is_mean_of_previous_window (st : State) (s w0 w1 w2 w3 w4 : Nat)
    (hbuf : st.buffer_samples = [w0, w1, w2, w3, w4])
    (h0 : w0 < 2 ^ 16) (h1 : w1 < 2 ^ 16) (h2 : w2 < 2 ^ 16) (h3 : w3 < 2 ^ 16)
    (h4 : w4 < 2 ^ 16) :
    (take_sample st s).avg = (w0 + w1 + w2 + w3 + w4) / 5 ∧
    (detect_discharge (take_sample st s)).avg = (w0 + w1 + w2 + w3 + w4) / 5 ∧
    (tick st s).avg = (w0 + w1 + w2 + w3 + w4) / 5 ∧
    calc_avg_sum st.buffer_samples (List.range BUFFER_DEPTH) 0 = w0 + w1 + w2 + w3 + w4 ∧
    w0 + w1 + w2 + w3 + w4 < 2 ^ 32 ∧
    min w0 (min w1 (min w2 (min w3 w4))) ≤ (take_sample st s).avg ∧
    (take_sample st s).avg ≤ max w0 (max w1 (max w2 (max w3 w4))) := by
  have hk := take_sample_keeps st s
  have hc := calc_avg_window st w0 w1 w2 w3 w4 hbuf h0 h1 h2 h3 h4
  have hd := detect_discharge_keeps (take_sample st s)
  have hu := unblock_keeps (detect_discharge (take_sample st s))
  have e0 : List.range BUFFER_DEPTH = [0, 1, 2, 3, 4] := by decide
  refine ⟨by rw [hk.1, hc], by rw [hd.2.1, hk.1, hc], ?_, ?_, by omega, ?_, ?_⟩
  · unfold tick
    rw [hu.2.1, hd.2.1, hk.1, hc]
  · rw [e0, hbuf]
    simp only [calc_avg_sum, List.getD_cons_zero, List.getD_cons_succ]
    omega
  · rw [hk.1, hc]; omega
  · rw [hk.1, hc]; omega

/-- C15 at the window `[400, 500, 500, 500, 500]` taking the sample 7. -/
theorem avg_is_mean_of_previous_window_witness :
    (take_sample (armed_dip_500 zero_fram) 7).avg = (400 + 500 + 500 + 500 + 500) / 5 ∧
      (tick (armed_dip_500 zero_fram) 7).avg = (400 + 500 + 500 + 500 + 500) / 5 :=
  ⟨(avg_is_mean_of_previous_window (armed_dip_500 zero_fram) 7 400 500 500 500 500 rfl
      (by decide) (by decide) (by decide) (by decide) (by decide)).1,
    (avg_is_mean_of_previous_window (armed_dip_500 zero_fram) 7 400 500 500 500 500 rfl
      (by decide) (by decide) (by decide) (by decide) (by decide)).2.2.1⟩

/-! ## The bin table -/

/-- C17. The three tables have 100 entries each and are strictly ascending;
`addr[i] = 4 * i` for every bin, so the 4-byte cells of different bins do not
overlap, each cell starts where the previous one ends, the first starts at 0
and the last ends at 399, and every table address is below the bound `0x1FC`
at which `write_4bytes` refuses to write. -/
theorem bin_table_well_formed :
    bins_adc.length = 100 ∧ bins_V.length = 100 ∧ addr.length = 100 ∧
    bins_adc.Pairwise (fun x y => x < y) ∧
    bins_V.Pairwise (fun x y => x < y) ∧
    addr.Pairwise (fun x y => x < y) ∧
    (∀ i, i < 100 → addr.getD i 0 = 4 * i) ∧
    (∀ i j, i < j → j < 100 → addr.getD i 0 + 4 ≤ addr.getD j 0) ∧
    (∀ i, i + 1 < 100 → addr.getD (i + 1) 0 = addr.getD i 0 + 4) ∧
    addr.getD 0 0 = 0 ∧ addr.getD 99 0 + 3 = 399 ∧
    (∀ i, i < 100 → addr.getD i 0 + 3 < 0x1FC) ∧
    (∀ (m : FRAM) (i d : Nat), i < 100 → d < 2 ^ 32 →
      read_4bytes (write_4bytes m (addr.getD i 0) d) (addr.getD i 0) = d) := by
  refine ⟨by decide, by decide, by decide, by decide, by decide, by decide,
    fun i hi => addr_getD i hi, ?_, ?_, by decide, by decide, ?_, ?_⟩
  · intro i j hij hj
    rw [addr_getD i (by omega), addr_getD j hj]
    omega
  · intro i hi
    rw [addr_getD i (by omega), addr_getD (i + 1) hi]
    omega
  · intro i hi
    rw [addr_getD i hi]
    omega
  · intro m i d hi hd
    rw [read_4bytes_write_4bytes_same m _ d (by rw [addr_getD i hi]; omega)]
    exact Nat.mod_eq_of_lt hd

/-! ## The Block Counter -/

/-- A Block Counter of at most the maximum stays so through
`unblock_detect_discharge`. -/
theorem unblock_counter_le (st : State)
    (h : st.detection_block_counter ≤ DETECTION_BLOCK_COUNTER_MAX) :
    (unblock_detect_discharge st).detection_block_counter ≤ DETECTION_BLOCK_COUNTER_MAX := by
  unfold unblock_detect_discharge
  by_cases ht : st.buffer_samples.getD 0 0 < (st.avg + UNBLOCK_DELTA) % 2 ^ 32 ∧
      st.buffer_samples.getD 0 0 > (st.avg + 2 ^ 32 - UNBLOCK_DELTA) % 2 ^ 32
  · rw [if_pos ht]
    dsimp only
    by_cases hc : (st.detection_block_counter + 1) % 2 ^ 32 > DETECTION_BLOCK_COUNTER_MAX
    · rw [if_pos hc]
      exact Nat.zero_le _
    · rw [if_neg hc]
      exact Nat.le_of_not_gt hc
  · rw [if_neg ht]
    exact h

/-- The blocked flag is cleared by `unblock_detect_discharge` only together
with the Block Counter. -/
theorem unblock_clears_both (st : State) (hB : st.discharge_detection_blocked ≠ 0)
    (h0 : (unblock_detect_discharge st).discharge_detection_blocked = 0) :
    (unblock_detect_discharge st).detection_block_counter = 0 := by
  unfold unblock_detect_discharge at h0 ⊢
  by_cases ht : st.buffer_samples.getD 0 0 < (st.avg + UNBLOCK_DELTA) % 2 ^ 32 ∧
      st.buffer_samples.getD 0 0 > (st.avg + 2 ^ 32 - UNBLOCK_DELTA) % 2 ^ 32
  · rw [if_pos ht] at h0 ⊢
    dsimp only at h0 ⊢
    by_cases hc : (st.detection_block_counter + 1) % 2 ^ 32 > DETECTION_BLOCK_COUNTER_MAX
    · rw [if_pos hc]
    · rw [if_neg hc] at h0
      exact absurd h0 hB
  · rw [if_neg ht] at h0
    exact absurd h0 hB

/-- An Armed state stays Armed through `unblock_detect_discharge`. -/
theorem unblock_keeps_armed (st : State) (hA : st.discharge_detection_blocked = 0) :
    (unblock_detect_discharge st).discharge_detection_blocked = 0 := by
  unfold unblock_detect_discharge
  by_cases ht : st.buffer_samples.getD 0 0 < (st.avg + UNBLOCK_DELTA) % 2 ^ 32 ∧
      st.buffer_samples.getD 0 0 > (st.avg + 2 ^ 32 - UNBLOCK_DELTA) % 2 ^ 32
  · rw [if_pos ht]
    dsimp only
    by_cases hc : (st.detection_block_counter + 1) % 2 ^ 32 > DETECTION_BLOCK_COUNTER_MAX
    · rw [if_pos hc]
    · rw [if_neg hc]
      exact hA
  · rw [if_neg ht]
    exact hA

/-- A Block Counter of at most the maximum stays so through a loop iteration. -/
theorem tick_counter_le (st : State) (s : Nat)
    (h : st.detection_block_counter ≤ DETECTION_BLOCK_COUNTER_MAX) :
    (tick st s).detection_block_counter ≤ DETECTION_BLOCK_COUNTER_MAX := by
  unfold tick
  apply unblock_counter_le
  rw [(detect_discharge_keeps _).2.2, (take_sample_keeps st s).2.2.1]
  exact h

/-- A Block Counter of at most the maximum stays so through a run. -/
theorem run_counter_le (ss : List Nat) (st : State)
    (h : st.detection_block_counter ≤ DETECTION_BLOCK_COUNTER_MAX) :
    (run st ss).detection_block_counter ≤ DETECTION_BLOCK_COUNTER_MAX := by
  induction ss generalizing st with
  | nil => exact h
  | cons s ss ih =>
    unfold run
    exact ih (tick st s) (tick_counter_le st s h)

/-- A loop iteration that starts Blocked and ends Armed ends with Block
Counter 0. -/
theorem tick_rearm_counter (st : State) (s : Nat) (hB : st.discharge_detection_blocked ≠ 0)
    (h0 : (tick st s).discharge_detection_blocked = 0) :
    (tick st s).detection_block_counter = 0 := by
  have hk := take_sample_keeps st s
  have hB' : (take_sample st s).discharge_detection_blocked ≠ 0 := by rw [hk.2.1]; exact hB
  unfold tick at h0 ⊢
  rw [detect_discharge_of_blocked _ hB'] at h0 ⊢
  exact unblock_clears_both _ hB' h0

/-- C18. After every run of loop iterations from the reset state the Block
Counter is at most `DETECTION_BLOCK_COUNTER_MAX`, and whenever the next
iteration takes the state from Blocked to Armed it ends with the Block
Counter equal to 0. -/
theorem block_counter_bounded_and_cleared (m : FRAM) (ss : List Nat) :
    (run (reset m) ss).detection_block_counter ≤ DETECTION_BLOCK_COUNTER_MAX ∧
    ∀ s : Nat, (run (reset m) ss).discharge_detection_blocked ≠ 0 →
      (tick (run (reset m) ss) s).discharge_detection_blocked = 0 →
      (tick (run (reset m) ss) s).detection_block_counter = 0 :=
  ⟨run_counter_le ss (reset m) (Nat.zero_le _),
    fun s hB h0 => tick_rearm_counter (run (reset m) ss) s hB h0⟩

/-- C18 on the run of 105 samples of 500 from reset, which ends Blocked, and
the 106th sample, which re-arms the detector. -/
theorem block_counter_bounded_and_cleared_witness :
    (run (reset zero_fram) (List.replicate 105 500)).discharge_detection_blocked ≠ 0 ∧
      (tick (run (reset zero_fram) (List.replicate 105 500)) 500).discharge_detection_blocked
        = 0 ∧
      (tick (run (reset zero_fram) (List.replicate 105 500)) 500).detection_block_counter = 0 :=
  ⟨by decide!, by decide!,
    (block_counter_bounded_and_cleared zero_fram (List.replicate 105 500)).2 500
      (by decide!) (by decide!)⟩

/-! ## The shift loop -/

/-- C19 (the code departs from the claim). In every loop iteration the shift
loop starts at `i = BUFFER_DEPTH - 1` and its first store goes to
`buffer_samples[BUFFER_DEPTH]`, one element past the window: the sampling
step of any state makes exactly one out-of-bounds store, as does the first
iteration after reset. -/
theorem shift_stores_past_window :
    (∀ (st : State) (s : Nat), (take_sample st s).oob_writes = st.oob_writes + 1) ∧
      ¬ (BUFFER_DEPTH - 1 + 1 < BUFFER_DEPTH) ∧
      (reset zero_fram).oob_writes = 0 ∧
      (tick (reset zero_fram) 0).oob_writes = 1 := by
  refine ⟨?_, by decide, by decide, by decide⟩
  intro st s
  simp [take_sample, shift_samples, store_sample, BUFFER_DEPTH]

/-! ## Lookup results as table indices -/

/-- For a level of at most 1023 the lookup returns `-1` or an index in `1..98`. -/
theorem get_index_bin_range_10bit (level : Nat) (h : level ≤ 1023) :
    get_index_bin level = -1 ∨
      ∃ k : Nat, 1 ≤ k ∧ k ≤ 98 ∧ get_index_bin level = (k : Int) := by
  have e : get_index_bin level = get_index_bin_loop level 98 := by
    have hl : bins_adc.length - 1 = 98 + 1 := by decide
    have h99 : bins_adc.getD (98 + 1) 0 = 1023 := by decide
    have step : get_index_bin_loop level (98 + 1) =
        if level > bins_adc.getD (98 + 1) 0 then ((98 + 1 : Nat) : Int)
        else get_index_bin_loop level 98 := rfl
    unfold get_index_bin
    rw [hl, Nat.mod_eq_of_lt (by omega), step, h99, if_neg (by omega)]
  rw [e]
  exact get_index_bin_loop_range level 98

/-- C20. For every level in `0..1023`, `get_index_bin` returns `-1` or an
index between 1 and 98, which is inside `addr`, `bins_V` and `bins_adc`; the
average of five such samples is again in `0..1023`; and a call of
`detect_discharge` with such an average leaves the counters of bin 0 and of
bin 99 as they were. -/
theorem lookup_stays_inside_tables (level : Nat) (h : level ≤ 1023) :
    (get_index_bin level = -1 ∨
      ∃ k : Nat, 1 ≤ k ∧ k ≤ 98 ∧ get_index_bin level = (k : Int) ∧
        k < addr.length ∧ k < bins_V.length ∧ k < bins_adc.length) ∧
    (∀ (st : State) (a b c d e : Nat), st.buffer_samples = [a, b, c, d, e] →
      a ≤ 1023 → b ≤ 1023 → c ≤ 1023 → d ≤ 1023 → e ≤ 1023 → calc_avg st ≤ 1023) ∧
    (∀ st : State, st.avg = level →
      counter (detect_discharge st).fram 0 = counter st.fram 0 ∧
      counter (detect_discharge st).fram 99 = counter st.fram 99) := by
  have hlen : addr.length = 100 ∧ bins_V.length = 100 ∧ bins_adc.length = 100 := by decide
  refine ⟨?_, ?_, ?_⟩
  · rcases get_index_bin_range_10bit level h with hb | ⟨k, h1, h98, hb⟩
    · left; exact hb
    · right
      refine ⟨k, h1, h98, hb, ?_, ?_, ?_⟩
      · rw [hlen.1]; omega
      · rw [hlen.2.1]; omega
      · rw [hlen.2.2]; omega
  · intro st a b c d e hbuf ha hb hc hd he
    rw [calc_avg_window st a b c d e hbuf (by omega) (by omega) (by omega) (by omega) (by omega)]
    omega
  · intro st hst
    by_cases hA : st.discharge_detection_blocked = 0
    · by_cases hd : (st.avg + 2 ^ 32 - DELTAV_TH) % 2 ^ 32 > st.buffer_samples.getD 0 0
      · rcases get_index_bin_range_10bit st.avg (by rw [hst]; exact h) with
          hb | ⟨k, h1, h98, hb⟩
        · rw [detect_discharge_of_not_found st hA hd hb]
          exact ⟨rfl, rfl⟩
        · rw [detect_discharge_of_found st k hA hd hb]
          rw [(record_discharge_fields { st with discharge_detection_blocked := 1 } k).2.2.2.2.2]
          dsimp only
          exact ⟨counter_write_other _ k 0 _ (by omega) (by omega) (by omega),
            counter_write_other _ k 99 _ (by omega) (by omega) (by omega)⟩
      · rw [detect_discharge_of_no_dip st hd]
        exact ⟨rfl, rfl⟩
    · rw [detect_discharge_of_blocked st hA]
      exact ⟨rfl, rfl⟩

/-- C20 at the top of the 10-bit range, where bin 98 is found. -/
theorem lookup_stays_inside_tables_witness :
    (1023 : Nat) ≤ 1023 ∧
      (get_index_bin 1023 = -1 ∨
        ∃ k : Nat, 1 ≤ k ∧ k ≤ 98 ∧ get_index_bin 1023 = (k : Int) ∧
          k < addr.length ∧ k < bins_V.length ∧ k < bins_adc.length) :=
  ⟨by decide, (lookup_stays_inside_tables 1023 (by decide)).1⟩

/-! ## Iterations over a known window -/

/-- A run over two sample lists in a row. -/
theorem run_append (xs ys : List Nat) (st : State) :
    run st (xs ++ ys) = run (run st xs) ys := by
  induction xs generalizing st with
  | nil => rfl
  | cons s xs ih =>
    simp only [List.cons_append, run]
    exact ih (tick st s)

/-- Entered at `n ≥ 1` with a level above `bins_adc[1]`, the lookup loop
finds a bin. -/
theorem get_index_bin_loop_found (v n : Nat) (hn : 1 ≤ n) (hv : v > bins_adc.getD 1 0) :
    get_index_bin_loop v n ≠ -1 := by
  induction n with
  | zero => omega
  | succ n ih =>
    unfold get_index_bin_loop
    by_cases hc : v > bins_adc.getD (n + 1) 0
    · rw [if_pos hc]
      omega
    · rw [if_neg hc]
      by_cases h0 : n = 0
      · subst h0
        exact absurd hv hc
      · exact ih (by omega)

/-- A 16-bit level above 143 has a bin. -/
theorem get_index_bin_found (v : Nat) (hv : 143 < v) (hv2 : v < 2 ^ 16) :
    ∃ k : Nat, 1 ≤ k ∧ k ≤ 99 ∧ get_index_bin v = (k : Int) := by
  rcases get_index_bin_range v with hb | h
  · exfalso
    have hne := get_index_bin_loop_found (v % 2 ^ 16) 99 (by omega)
      (by rw [Nat.mod_eq_of_lt hv2]; exact hv)
    exact hne hb
  · exact h

/-- A sample at or above `avg + UNBLOCK_DELTA` fails the test of
`unblock_detect_discharge`. -/
theorem unblock_of_above (st : State) (h2 : st.avg + UNBLOCK_DELTA < 2 ^ 32)
    (h : st.avg + UNBLOCK_DELTA ≤ newest st) :
    unblock_detect_discharge st = st := by
  unfold unblock_detect_discharge
  rw [if_neg]
  unfold newest at h
  unfold UNBLOCK_DELTA at *
  omega

/-- An iteration whose sample is no dip against the mean of a window of
16-bit values: the window shifts, store and output stay, Armed stays Armed. -/
theorem tick_quiet_window (st : State) (s a b c d e : Nat)
    (hbuf : st.buffer_samples = [a, b, c, d, e])
    (ha : a < 2 ^ 16) (hb : b < 2 ^ 16) (hc : c < 2 ^ 16) (hd : d < 2 ^ 16) (he : e < 2 ^ 16)
    (hs : s < 2 ^ 16) (h10 : DELTAV_TH ≤ (a + b + c + d + e) / 5)
    (hle : (a + b + c + d + e) / 5 ≤ s + DELTAV_TH) :
    (tick st s).buffer_samples = [s, a, b, c, d] ∧
    (tick st s).fram = st.fram ∧
    (tick st s).trace = st.trace ∧
    (st.discharge_detection_blocked = 0 → (tick st s).discharge_detection_blocked = 0) := by
  have hk := take_sample_keeps st s
  have hw := take_sample_window st s a b c d e hbuf ha hb hc hd
  have hm := calc_avg_window st a b c d e hbuf ha hb hc hd he
  rw [Nat.mod_eq_of_lt hs] at hw
  have hnd : ¬ ((take_sample st s).avg + 2 ^ 32 - DELTAV_TH) % 2 ^ 32 >
      (take_sample st s).buffer_samples.getD 0 0 := by
    rw [hk.1, hm, hw]
    simp only [List.getD_cons_zero]
    unfold DELTAV_TH at *
    omega
  have hu := unblock_keeps (take_sample st s)
  unfold tick
  rw [detect_discharge_of_no_dip _ hnd]
  refine ⟨by rw [hu.1, hw], by rw [hu.2.2.1, hk.2.2.2.1], by rw [hu.2.2.2, hk.2.2.2.2], ?_⟩
  intro hA
  exact unblock_keeps_armed _ (by rw [hk.2.1]; exact hA)

/-- An iteration that starts Blocked with a sample at or above the band
around the mean of the window: only the window changes. -/
theorem tick_blocked_above_window (st : State) (s a b c d e : Nat)
    (hbuf : st.buffer_samples = [a, b, c, d, e])
    (ha : a < 2 ^ 16) (hb : b < 2 ^ 16) (hc : c < 2 ^ 16) (hd : d < 2 ^ 16) (he : e < 2 ^ 16)
    (hs : s < 2 ^ 16) (hB : st.discharge_detection_blocked ≠ 0)
    (h : (a + b + c + d + e) / 5 + UNBLOCK_DELTA ≤ s) :
    (tick st s).buffer_samples = [s, a, b, c, d] ∧
    (tick st s).discharge_detection_blocked = st.discharge_detection_blocked ∧
    (tick st s).detection_block_counter = st.detection_block_counter ∧
    (tick st s).fram = st.fram ∧
    (tick st s).trace = st.trace := by
  have hk := take_sample_keeps st s
  have hw := take_sample_window st s a b c d e hbuf ha hb hc hd
  have hm := calc_avg_window st a b c d e hbuf ha hb hc hd he
  rw [Nat.mod_eq_of_lt hs] at hw
  have hB' : (take_sample st s).discharge_detection_blocked ≠ 0 := by rw [hk.2.1]; exact hB
  have hab : unblock_detect_discharge (take_sample st s) = take_sample st s := by
    apply unblock_of_above
    · rw [hk.1]; exact calc_avg_lt st
    · unfold newest
      rw [hk.1, hm, hw]
      exact h
  unfold tick
  rw [detect_discharge_of_blocked _ hB', hab]
  exact ⟨hw, hk.2.1, hk.2.2.1, hk.2.2.2.1, hk.2.2.2.2⟩

/-- The first iteration after reset with a 16-bit sample of at least
`UNBLOCK_DELTA`: the zero average makes the detector fire without a bin. -/
theorem first_tick (m : FRAM) (v : Nat) (hv : UNBLOCK_DELTA ≤ v) (hv2 : v < 2 ^ 16) :
    (tick (reset m) v).buffer_samples = [v, 0, 0, 0, 0] ∧
    (tick (reset m) v).discharge_detection_blocked = 1 ∧
    (tick (reset m) v).detection_block_counter = 0 ∧
    (tick (reset m) v).fram = m ∧
    (tick (reset m) v).trace = [] := by
  have hz : (0 : Nat) < 2 ^ 16 := by norm_num
  have hk := take_sample_keeps (reset m) v
  have hw := take_sample_window (reset m) v 0 0 0 0 0 rfl hz hz hz hz
  have hm := calc_avg_window (reset m) 0 0 0 0 0 rfl hz hz hz hz hz
  rw [Nat.mod_eq_of_lt hv2] at hw
  have havg : (take_sample (reset m) v).avg = 0 := by rw [hk.1, hm]
  have hA : (take_sample (reset m) v).discharge_detection_blocked = 0 := by rw [hk.2.1]; rfl
  have hdip : ((take_sample (reset m) v).avg + 2 ^ 32 - DELTAV_TH) % 2 ^ 32 >
      (take_sample (reset m) v).buffer_samples.getD 0 0 := by
    rw [havg, hw]
    simp only [List.getD_cons_zero]
    unfold DELTAV_TH
    omega
  have hnb : get_index_bin (take_sample (reset m) v).avg = -1 := by rw [havg]; decide
  have hab : unblock_detect_discharge
      { take_sample (reset m) v with discharge_detection_blocked := 1 } =
      { take_sample (reset m) v with discharge_detection_blocked := 1 } := by
    apply unblock_of_above
    · show (take_sample (reset m) v).avg + UNBLOCK_DELTA < 2 ^ 32
      rw [havg]; decide
    · show (take_sample (reset m) v).avg + UNBLOCK_DELTA ≤
        (take_sample (reset m) v).buffer_samples.getD 0 0
      rw [havg, hw]
      simp only [List.getD_cons_zero]
      omega
  unfold tick
  rw [detect_discharge_of_not_found _ hA hdip hnb, hab]
  exact ⟨hw, rfl, hk.2.2.1, hk.2.2.2.1, hk.2.2.2.2⟩
/-- The first five iterations after reset with a 16-bit level `v ≥ 50`: the
window fills with `v`, the detector is Blocked with Block Counter 0, store
and output are untouched. -/
theorem warm_up (m : FRAM) (v : Nat) (hv : 50 ≤ v) (hv2 : v < 2 ^ 16) :
    (run (reset m) (List.replicate 5 v)).buffer_samples = [v, v, v, v, v] ∧
    (run (reset m) (List.replicate 5 v)).discharge_detection_blocked = 1 ∧
    (run (reset m) (List.replicate 5 v)).detection_block_counter = 0 ∧
    (run (reset m) (List.replicate 5 v)).fram = m ∧
    (run (reset m) (List.replicate 5 v)).trace = [] := by
  have hz : (0 : Nat) < 2 ^ 16 := by norm_num
  have e : run (reset m) (List.replicate 5 v) =
      tick (tick (tick (tick (tick (reset m) v) v) v) v) v := rfl
  rw [e]
  obtain ⟨b1, f1, c1, m1, t1⟩ := first_tick m v (by unfold UNBLOCK_DELTA; omega) hv2
  obtain ⟨b2, f2, c2, m2, t2⟩ := tick_blocked_above_window (tick (reset m) v) v v 0 0 0 0 b1
    hv2 hz hz hz hz hv2 (by rw [f1]; decide) (by unfold UNBLOCK_DELTA; omega)
  obtain ⟨b3, f3, c3, m3, t3⟩ := tick_blocked_above_window _ v v v 0 0 0 b2
    hv2 hv2 hz hz hz hv2 (by rw [f2, f1]; decide) (by unfold UNBLOCK_DELTA; omega)
  obtain ⟨b4, f4, c4, m4, t4⟩ := tick_blocked_above_window _ v v v v 0 0 b3
    hv2 hv2 hv2 hz hz hv2 (by rw [f3, f2, f1]; decide) (by unfold UNBLOCK_DELTA; omega)
  obtain ⟨b5, f5, c5, m5, t5⟩ := tick_blocked_above_window _ v v v v v 0 b4
    hv2 hv2 hv2 hv2 hz hv2 (by rw [f4, f3, f2, f1]; decide) (by unfold UNBLOCK_DELTA; omega)
  exact ⟨b5, by rw [f5, f4, f3, f2, f1], by rw [c5, c4, c3, c2, c1],
    by rw [m5, m4, m3, m2, m1], by rw [t5, t4, t3, t2, t1]⟩

/-- An iteration over a flat window of level `v` with the sample `v`. -/
theorem tick_flat (st : State) (v : Nat) (hbuf : st.buffer_samples = [v, v, v, v, v])
    (hv : DELTAV_TH ≤ v) (hv2 : v < 2 ^ 16) :
    (tick st v).buffer_samples = [v, v, v, v, v] ∧
    (tick st v).fram = st.fram ∧
    (tick st v).trace = st.trace ∧
    (st.discharge_detection_blocked = 0 → (tick st v).discharge_detection_blocked = 0) :=
  tick_quiet_window st v v v v v v hbuf hv2 hv2 hv2 hv2 hv2 hv2
    (by unfold DELTAV_TH at *; omega) (by omega)

/-- A run of the sample `v` over a flat window of level `v`. -/
theorem run_flat (n : Nat) (st : State) (v : Nat) (hbuf : st.buffer_samples = [v, v, v, v, v])
    (hv : DELTAV_TH ≤ v) (hv2 : v < 2 ^ 16) :
    (run st (List.replicate n v)).buffer_samples = [v, v, v, v, v] ∧
    (run st (List.replicate n v)).fram = st.fram ∧
    (run st (List.replicate n v)).trace = st.trace ∧
    (st.discharge_detection_blocked = 0 →
      (run st (List.replicate n v)).discharge_detection_blocked = 0) := by
  induction n generalizing st with
  | zero => exact ⟨hbuf, rfl, rfl, fun h => h⟩
  | succ n ih =>
    obtain ⟨tb, tf, tt, ta⟩ := tick_flat st v hbuf hv hv2
    obtain ⟨rb, rf, rt, ra⟩ := ih (tick st v) tb
    have e : run st (List.replicate (n + 1) v) = run (tick st v) (List.replicate n v) := rfl
    rw [e]
    exact ⟨rb, rf.trans tf, rt.trans tt, fun h => ra (ta h)⟩

/-- Over a flat window of level `v`, every iteration of a run of the sample
`v` is strictly inside the unblock band. -/
theorem flat_ticks_strictly_within (n : Nat) (st : State) (v : Nat)
    (hbuf : st.buffer_samples = [v, v, v, v, v]) (hv : DELTAV_TH ≤ v) (hv2 : v < 2 ^ 16) :
    ticks_strictly_within st (List.replicate n v) = true := by
  induction n generalizing st with
  | zero => rfl
  | succ n ih =>
    have hk := take_sample_keeps st v
    have hw := take_sample_window st v v v v v v hbuf hv2 hv2 hv2 hv2
    have hm := calc_avg_window st v v v v v hbuf hv2 hv2 hv2 hv2 hv2
    rw [Nat.mod_eq_of_lt hv2] at hw
    have e : List.replicate (n + 1) v = v :: List.replicate n v := rfl
    rw [e]
    unfold ticks_strictly_within
    rw [ih (tick st v) (tick_flat st v hbuf hv hv2).1, Bool.and_true, decide_eq_true_eq]
    unfold newest
    rw [hk.1, hm, hw]
    simp only [List.getD_cons_zero]
    unfold DELTAV_TH at hv
    unfold UNBLOCK_DELTA
    omega

/-- A run of the sample `v` over a window whose elements lie in
`v - 11 .. v` never shows a dip: store and output stay as they are. -/
theorem run_quiet_near (n : Nat) (st : State) (v : Nat)
    (hlen : st.buffer_samples.length = BUFFER_DEPTH)
    (hb : ∀ x ∈ st.buffer_samples, v ≤ x + 11 ∧ x ≤ v) (hv : 21 ≤ v) (hv2 : v < 2 ^ 16) :
    (run st (List.replicate n v)).fram = st.fram ∧
    (run st (List.replicate n v)).trace = st.trace := by
  induction n generalizing st with
  | zero => exact ⟨rfl, rfl⟩
  | succ n ih =>
    have e : run st (List.replicate (n + 1) v) = run (tick st v) (List.replicate n v) := rfl
    rw [e]
    match hbuf : st.buffer_samples, hlen, hb with
    | [a, b, c, d, e], _, hb =>
      have ha := hb a (by simp)
      have hb' := hb b (by simp)
      have hc := hb c (by simp)
      have hd := hb d (by simp)
      have he := hb e (by simp)
      obtain ⟨tb, tf, tt, _⟩ := tick_quiet_window st v a b c d e hbuf (by omega) (by omega)
        (by omega) (by omega) (by omega) hv2 (by unfold DELTAV_TH; omega)
        (by unfold DELTAV_TH; omega)
      have hb2 : ∀ x ∈ (tick st v).buffer_samples, v ≤ x + 11 ∧ x ≤ v := by
        rw [tb]
        intro x hx
        simp only [List.mem_cons, List.mem_singleton, List.not_mem_nil, or_false] at hx
        rcases hx with h | h | h | h | h <;> rw [h] <;> omega
      obtain ⟨rf, rt⟩ := ih (tick st v) (by rw [tb]; rfl) hb2
      exact ⟨rf.trans tf, rt.trans tt⟩
    | [], h, _ => simp [BUFFER_DEPTH] at h
    | [_], h, _ => simp [BUFFER_DEPTH] at h
    | [_, _], h, _ => simp [BUFFER_DEPTH] at h
    | [_, _, _], h, _ => simp [BUFFER_DEPTH] at h
    | [_, _, _, _], h, _ => simp [BUFFER_DEPTH] at h
    | _ :: _ :: _ :: _ :: _ :: _ :: _, h, _ => simp [BUFFER_DEPTH] at h

/-- The dip iteration: Armed over a flat window of level `v` with bin `k`,
the sample `v - (DELTAV_TH + 1)` makes the detector fire and record bin `k`. -/
theorem tick_dip (st : State) (v k : Nat) (hbuf : st.buffer_samples = [v, v, v, v, v])
    (hA : st.discharge_detection_blocked = 0) (hv : 143 < v) (hv2 : v < 2 ^ 16)
    (hk : get_index_bin v = (k : Int)) (hk100 : k < 100) :
    (tick st (v - (DELTAV_TH + 1))).buffer_samples = [v - (DELTAV_TH + 1), v, v, v, v] ∧
    (tick st (v - (DELTAV_TH + 1))).fram =
      write_4bytes st.fram (addr.getD k 0) ((read_4bytes st.fram (addr.getD k 0) + 1) % 2 ^ 32) ∧
    fram_writes (tick st (v - (DELTAV_TH + 1))).trace = fram_writes st.trace + 1 ∧
    reports (tick st (v - (DELTAV_TH + 1))).trace = reports st.trace + 1 := by
  have hs : v - (DELTAV_TH + 1) < 2 ^ 16 := by omega
  have hk' := take_sample_keeps st (v - (DELTAV_TH + 1))
  have hw := take_sample_window st (v - (DELTAV_TH + 1)) v v v v v hbuf hv2 hv2 hv2 hv2
  have hm := calc_avg_window st v v v v v hbuf hv2 hv2 hv2 hv2 hv2
  rw [Nat.mod_eq_of_lt hs] at hw
  have havg : (take_sample st (v - (DELTAV_TH + 1))).avg = v := by rw [hk'.1, hm]; omega
  have hA' : (take_sample st (v - (DELTAV_TH + 1))).discharge_detection_blocked = 0 := by
    rw [hk'.2.1]; exact hA
  have hdip : ((take_sample st (v - (DELTAV_TH + 1))).avg + 2 ^ 32 - DELTAV_TH) % 2 ^ 32 >
      (take_sample st (v - (DELTAV_TH + 1))).buffer_samples.getD 0 0 := by
    rw [havg, hw]
    simp only [List.getD_cons_zero]
    unfold DELTAV_TH
    omega
  have hf := record_discharge_fields
    { take_sample st (v - (DELTAV_TH + 1)) with discharge_detection_blocked := 1 } k
  have ht := record_discharge_trace
    { take_sample st (v - (DELTAV_TH + 1)) with discharge_detection_blocked := 1 } k hk100
  have hbelow : unblock_detect_discharge (record_discharge
      { take_sample st (v - (DELTAV_TH + 1)) with discharge_detection_blocked := 1 } k) =
      record_discharge
        { take_sample st (v - (DELTAV_TH + 1)) with discharge_detection_blocked := 1 } k := by
    apply unblock_of_below
    · rw [hf.2.1]; show (take_sample st (v - (DELTAV_TH + 1))).avg < 2 ^ 32
      rw [havg]; omega
    · rw [hf.2.1]; show UNBLOCK_DELTA ≤ (take_sample st (v - (DELTAV_TH + 1))).avg
      rw [havg]; unfold UNBLOCK_DELTA; omega
    · unfold newest
      rw [hf.2.1, hf.1]
      show (take_sample st (v - (DELTAV_TH + 1))).buffer_samples.getD 0 0 + UNBLOCK_DELTA ≤
        (take_sample st (v - (DELTAV_TH + 1))).avg
      rw [havg, hw]
      simp only [List.getD_cons_zero]
      unfold UNBLOCK_DELTA DELTAV_TH
      omega
  unfold tick
  rw [detect_discharge_of_found _ k hA' hdip (by rw [havg]; exact hk), hbelow]
  refine ⟨by rw [hf.1]; exact hw, ?_, ?_, ?_⟩
  · rw [hf.2.2.2.2.2]
    show write_4bytes (take_sample st (v - (DELTAV_TH + 1))).fram _ _ = _
    rw [hk'.2.2.2.1]
  · rw [ht.1]
    show fram_writes (take_sample st (v - (DELTAV_TH + 1))).trace + 1 = _
    rw [hk'.2.2.2.2]
  · rw [ht.2]
    show reports (take_sample st (v - (DELTAV_TH + 1))).trace + 1 = _
    rw [hk'.2.2.2.2]
/-! ## End to end -/

/-- C16. From the reset state over any store whose bin counters are all
below `2 ^ 32 - 1`, for every level `v` with `143 < v ≤ 1023`: after 200
samples of `v`, one sample `v - (DELTAV_TH + 1)` and any number `n` of
further samples of `v`, so also `DETECTION_BLOCK_COUNTER_MAX + 1` or more of
them, the counter of the bin `k = get_index_bin(v)` is one higher than
before, the counter of every other bin is unchanged, and the output holds
exactly one FRAM write and exactly one `output_log` report. -/
theorem one_dip_one_count (m : FRAM) (v n : Nat) (hv : 143 < v) (hv2 : v ≤ 1023)
    (hm : ∀ i, i < 100 → counter m i < 2 ^ 32 - 1) :
    ∃ k : Nat, get_index_bin v = (k : Int) ∧ k < 100 ∧
      counter (run (reset m)
        (List.replicate 200 v ++ [v - (DELTAV_TH + 1)] ++ List.replicate n v)).fram k =
          counter m k + 1 ∧
      (∀ j, j < 100 → j ≠ k →
        counter (run (reset m)
          (List.replicate 200 v ++ [v - (DELTAV_TH + 1)] ++ List.replicate n v)).fram j =
            counter m j) ∧
      fram_writes (run (reset m)
        (List.replicate 200 v ++ [v - (DELTAV_TH + 1)] ++ List.replicate n v)).trace = 1 ∧
      reports (run (reset m)
        (List.replicate 200 v ++ [v - (DELTAV_TH + 1)] ++ List.replicate n v)).trace = 1 := by
  have hv16 : v < 2 ^ 16 := by omega
  have hv10 : DELTAV_TH ≤ v := by unfold DELTAV_TH; omega
  obtain ⟨k, _, hk99, hk⟩ := get_index_bin_found v hv hv16
  have hk100 : k < 100 := by omega
  -- iterations 1..5
  obtain ⟨b5, f5, c5, m5, t5⟩ := warm_up m v (by omega) hv16
  -- iterations 6..106
  obtain ⟨b106, m106, t106, _⟩ := run_flat 101 _ v b5 hv10 hv16
  have a106 := (run_blocked_inside (List.replicate 101 v) _ (by rw [f5]; decide)
    (by rw [c5]; exact Nat.zero_le _) (by rw [c5, List.length_replicate]; rfl)
    (flat_ticks_strictly_within 101 _ v b5 hv10 hv16)).1
  -- iterations 107..200
  obtain ⟨b200, m200, t200, a200⟩ := run_flat 94 _ v b106 hv10 hv16
  have a200 := a200 a106
  -- iteration 201
  obtain ⟨b201, m201, w201, r201⟩ := tick_dip _ v k b200 a200 hv hv16 hk hk100
  -- the remaining iterations
  obtain ⟨mfin, tfin⟩ := run_quiet_near n _ v (by rw [b201]; rfl)
    (by
      rw [b201]
      intro x hx
      simp only [List.mem_cons, List.mem_singleton, List.not_mem_nil, or_false] at hx
      unfold DELTAV_TH at hx
      rcases hx with h | h | h | h | h <;> rw [h] <;> omega)
    (by omega) hv16
  have esplit : List.replicate 200 v =
      List.replicate 5 v ++ (List.replicate 101 v ++ List.replicate 94 v) := by
    rw [← List.replicate_add, ← List.replicate_add]
  have erun : run (reset m)
      (List.replicate 200 v ++ [v - (DELTAV_TH + 1)] ++ List.replicate n v) =
      run (tick (run (run (run (reset m) (List.replicate 5 v)) (List.replicate 101 v))
        (List.replicate 94 v)) (v - (DELTAV_TH + 1))) (List.replicate n v) := by
    rw [run_append, run_append, esplit, run_append, run_append]
    rfl
  have hfram : (run (reset m)
      (List.replicate 200 v ++ [v - (DELTAV_TH + 1)] ++ List.replicate n v)).fram =
      write_4bytes m (addr.getD k 0) ((read_4bytes m (addr.getD k 0) + 1) % 2 ^ 32) := by
    rw [erun, mfin, m201, m200, m106, m5]
  have htrace : (run (reset m)
      (List.replicate 200 v ++ [v - (DELTAV_TH + 1)] ++ List.replicate n v)).trace =
      (tick (run (run (run (reset m) (List.replicate 5 v)) (List.replicate 101 v))
        (List.replicate 94 v)) (v - (DELTAV_TH + 1))).trace := by
    rw [erun, tfin]
  have hc := hm k hk100
  refine ⟨k, hk, hk100, ?_, ?_, ?_, ?_⟩
  · rw [hfram, counter_write_same _ _ _ hk100]
    have e : read_4bytes m (addr.getD k 0) = counter m k := rfl
    rw [e]
    omega
  · intro j hj hne
    rw [hfram]
    exact counter_write_other _ k j _ hk100 hj hne
  · rw [htrace, w201, t200, t106, t5]
    rfl
  · rw [htrace, r201, t200, t106, t5]
    rfl

/-- C16 at level 500 over an empty histogram with 101 closing samples. -/
theorem one_dip_one_count_witness :
    ∃ k : Nat, get_index_bin 500 = (k : Int) ∧ k < 100 ∧
      counter (run (reset zero_fram)
        (List.replicate 200 500 ++ [500 - (DELTAV_TH + 1)] ++ List.replicate 101 500)).fram k =
          counter zero_fram k + 1 ∧
      (∀ j, j < 100 → j ≠ k →
        counter (run (reset zero_fram)
          (List.replicate 200 500 ++ [500 - (DELTAV_TH + 1)] ++ List.replicate 101 500)).fram j =
            counter zero_fram j) ∧
      fram_writes (run (reset zero_fram)
        (List.replicate 200 500 ++ [500 - (DELTAV_TH + 1)] ++ List.replicate 101 500)).trace
          = 1 ∧
      reports (run (reset zero_fram)
        (List.replicate 200 500 ++ [500 - (DELTAV_TH + 1)] ++ List.replicate 101 500)).trace
          = 1 :=
  one_dip_one_count zero_fram 500 101 (by decide) (by decide) (by decide)

end HiVoPuCounter
